import Mathlib

/-! IKEA-Hackant: lift-table controller (`src/main.cpp`)

A shallow embedding of the Arduino sketch `src/main.cpp` and a verification of its
specification.  The sketch targets an AVR microcontroller (`avr_util.h`, `sei()`, `PD4`,
`PD7`): `int` is 16 bits wide, `long` is 32 bits wide, `uint16_t` is `unsigned int`.

The global variables of the sketch, the two output latches, the byte at EEPROM address 0
and the text written to the serial port form the `State`; every function of the sketch is
a function on `State`.  Machine integers are natural numbers or integers with the
wrap-around written out (`uint8`, `uint16`, `int16`, `int32`).
-/

namespace Hackant

/-! ## Machine integers -/

/-- Conversion to `uint8_t`: reduction modulo `2^8`. -/
def uint8 (z : Int) : Nat := (z % 256).toNat

/-- Conversion to `uint16_t` (`unsigned int` on AVR): reduction modulo `2^16`. -/
def uint16 (z : Int) : Nat := (z % 65536).toNat

/-- Conversion to the 16-bit `int` of AVR: two's complement wrap-around. -/
def int16 (z : Int) : Int := (z + 32768) % 65536 - 32768

/-- Conversion to the 32-bit `long` of AVR: two's complement wrap-around. -/
def int32 (z : Int) : Int := (z + 2147483648) % 4294967296 - 2147483648

/-- The `abs` of `Arduino.h`, `((x)>0?(x):-(x))`, on the 16-bit `int`. -/
def abs (x : Int) : Int := int16 (if x > 0 then x else -x)

/-! ## State -/

/-- Electrical level of a digital output. -/
inductive Level where
  | LOW
  | HIGH
  deriving DecidableEq, Repr

open Level

/-- The globals of the sketch (lines 23-28) together with the hardware it drives:
the output latches of the two motion pins, the byte at EEPROM address 0 and the chunks of
text written to the serial port, one entry for each `Serial.print`/`Serial.println`. -/
structure State where
  lastPosition : Nat
  currentTarget : Nat
  initializedTarget : Nat
  targetThreshold : Nat
  currentTableMovement : Nat
  upPin : Level
  downPin : Level
  eeprom0 : Nat
  serial : List String
  deriving DecidableEq, Repr

/-- Pin number `PD4`. -/
def moveTableUpPin : Nat := 4

/-- Pin number `PD7`. -/
def moveTableDownPin : Nat := 7

/-- The call `digitalWrite(pin, val)` on the two pins the sketch drives. -/
def digitalWrite (pin : Nat) (val : Level) (s : State) : State :=
  if pin = moveTableUpPin then { s with upPin := val }
  else if pin = moveTableDownPin then { s with downPin := val }
  else s

/-- The call `Serial.print(t)`. -/
def serialPrint (t : String) (s : State) : State :=
  { s with serial := s.serial ++ [t] }

/-- The call `Serial.println(t)`. -/
def serialPrintln (t : String) (s : State) : State :=
  { s with serial := s.serial ++ [t ++ "\r\n"] }

/-! ## The functions of the sketch -/

/-- Lines 35-42. -/
def printValues (s : State) : State :=
  let s := serialPrintln "======= VALUES =======" s
  let s := serialPrint "Threshold is: " s
  let s := serialPrintln (toString s.targetThreshold) s
  let s := serialPrint "Current Position: " s
  let s := serialPrintln (toString s.lastPosition) s
  serialPrintln "======================" s

/-- Lines 44-52. -/
def printHelp (s : State) : State :=
  let s := serialPrintln "======= Serial Commands =======" s
  let s := serialPrintln "Send 'STOP' to stop" s
  let s := serialPrintln "Send 'HELP' to show this view" s
  let s := serialPrintln "Send 'VALUES' to show the current values" s
  let s := serialPrintln "Send 'T123' to set the threshold to 123 (255 max!)" s
  let s := serialPrintln "Send '1580' to move to position 1580." s
  serialPrintln "===============================" s

/-- Lines 54-63; `value` is a `uint8_t`. -/
def storeThreshold (value : Nat) (s : State) : State :=
  if value > 50 ∧ value < 254 then
    let s := { s with targetThreshold := value }
    let s := serialPrint "New Threshold: " s
    let s := serialPrintln (toString value) s
    { s with eeprom0 := value }
  else
    serialPrintln "Not stored. Keep your value between 50 and 254" s

/-- Lines 70-87, with the state after each `digitalWrite` of the call, in order. -/
def moveTableSteps (direction : Nat) (s : State) : List State :=
  if direction ≠ s.currentTableMovement then
    let s := { s with currentTableMovement := direction }
    if direction = 0 then
      let s := serialPrintln "Table stops" s
      let s1 := digitalWrite moveTableUpPin HIGH s
      let s2 := digitalWrite moveTableDownPin HIGH s1
      [s1, s2]
    else if direction = 1 then
      let s := serialPrintln "Table goes up" s
      let s1 := digitalWrite moveTableDownPin HIGH s
      let s2 := digitalWrite moveTableUpPin LOW s1
      [s1, s2]
    else
      let s := serialPrintln "Table goes down" s
      let s1 := digitalWrite moveTableUpPin HIGH s
      let s2 := digitalWrite moveTableDownPin LOW s1
      [s1, s2]
  else []

/-- Lines 70-87; `direction` is a `uint8_t`. -/
def moveTable (direction : Nat) (s : State) : State :=
  if direction ≠ s.currentTableMovement then
    let s := { s with currentTableMovement := direction }
    if direction = 0 then
      let s := serialPrintln "Table stops" s
      let s := digitalWrite moveTableUpPin HIGH s
      digitalWrite moveTableDownPin HIGH s
    else if direction = 1 then
      let s := serialPrintln "Table goes up" s
      let s := digitalWrite moveTableDownPin HIGH s
      digitalWrite moveTableUpPin LOW s
    else
      let s := serialPrintln "Table goes down" s
      let s := digitalWrite moveTableUpPin HIGH s
      digitalWrite moveTableDownPin LOW s
  else s

/-- Lines 92-105.  `lastPosition - currentTarget` is an `unsigned int` subtraction, its
result is converted to the 16-bit `int distance`; `abs(distance)` is converted to
`uint16_t`. -/
def desiredTableDirection (s : State) : Nat :=
  let distance : Int := int16 (uint16 ((s.lastPosition : Int) - (s.currentTarget : Int)))
  let absDistance : Nat := uint16 (abs distance)
  if absDistance > s.targetThreshold then
    if distance ≤ 0 then 1 else 2
  else 0

/-- Modelled from the spec: the frame type `LinFrame` of `lin_processor.h`, which is not
among the sources; an "opaque frame type exposing byte-at-offset access", each byte a
`uint8_t`. -/
structure LinFrame where
  bytes : List Nat
  deriving DecidableEq, Repr

/-- Modelled from the spec: `LinFrame::get_byte` of `lin_processor.h`, the byte at an
offset of the frame. -/
def LinFrame.get_byte (frame : LinFrame) (index : Nat) : Nat :=
  (frame.bytes.getD index 0) % 256

/-- Lines 108-139.  `buffer` holds at most four characters of the decimal position. -/
def processLINFrame (frame : LinFrame) (s : State) : State :=
  let id := frame.get_byte 0
  if id = 0x92 then
    let varA := frame.get_byte 2
    let varB := frame.get_byte 1
    let temp := varA
    let temp := uint16 ((temp : Int) * 256)
    let temp := temp ||| varB
    if temp ≠ s.lastPosition then
      let s := { s with lastPosition := temp }
      let myString := toString temp
      let buffer := String.mk (myString.toList.take 4)
      let s := serialPrint "Current Position: " s
      let s := serialPrintln buffer s
      if s.initializedTarget = 0 then
        { s with currentTarget := temp, initializedTarget := 1 }
      else s
    else s
  else s

/-- The values of the globals at reset (lines 23-28) over the hardware state: the output
latches are cleared at reset, `persisted` is the byte found at EEPROM address 0. -/
def reset (persisted : Nat) : State :=
  { lastPosition := 0, currentTarget := 0, initializedTarget := 0, targetThreshold := 0,
    currentTableMovement := 0, upPin := LOW, downPin := LOW, eeprom0 := persisted,
    serial := [] }

/-- Lines 141-173, run on the state at reset. -/
def setup (persisted : Nat) : State :=
  let s := reset persisted
  let s := serialPrintln "IKEA Hackant v1.0" s
  let s := serialPrintln "Type 'HELP' to display all commands." s
  let s := digitalWrite moveTableUpPin HIGH s
  let s := digitalWrite moveTableDownPin HIGH s
  let s := { s with targetThreshold := s.eeprom0 }
  let s := if s.targetThreshold = 255 then storeThreshold 120 s else s
  printValues s

/-! ## The console line -/

/-- The `isspace` of the C library. -/
def isspace (c : Char) : Bool :=
  c.toNat = 32 || (9 ≤ c.toNat && c.toNat ≤ 13)

/-- The digit loop of `atol`: `acc` is the value of the digits read so far. -/
def atolDigits (acc : Nat) : List Char → Nat
  | [] => acc
  | c :: cs =>
    if 48 ≤ c.toNat ∧ c.toNat ≤ 57 then atolDigits (acc * 10 + (c.toNat - 48)) cs
    else acc

/-- The `atol` of avr-libc: white space is skipped, an optional sign is read, then decimal
digits up to the first other character; the 32-bit accumulator wraps around. -/
def atol (cs : List Char) : Int :=
  match cs.dropWhile isspace with
  | [] => 0
  | c :: r =>
    if c = '-' then int32 (-(atolDigits 0 r : Int))
    else if c = '+' then int32 (atolDigits 0 r)
    else int32 (atolDigits 0 (c :: r))

/-- The method `String::toInt`, which is `atol` on the characters of the string. -/
def toInt (val : List Char) : Int := atol val

/-- The method `String::substring(left)`. -/
def substring (left : Nat) (val : List Char) : List Char := val.drop left

/-- Whether `pat` starts `val`. -/
def startsWith : List Char → List Char → Bool
  | [], _ => true
  | _ :: _, [] => false
  | p :: ps, c :: cs => p = c && startsWith ps cs

/-- The test `val.indexOf(pat) != -1`: `pat`, which is not empty, occurs in `val`. -/
def hasIndexOf (pat : List Char) : List Char → Bool
  | [] => false
  | c :: cs => startsWith pat (c :: cs) || hasIndexOf pat cs

/-- Lines 204-231: the dispatch of the line `val` read from the console, `direction` being
the local variable of `loop` computed on line 195. -/
def serialCommand (direction : Nat) (val : List Char) (s : State) : State :=
  if hasIndexOf "HELP".toList val || hasIndexOf "help".toList val then
    printHelp s
  else if hasIndexOf "VALUES".toList val || hasIndexOf "values".toList val then
    printValues s
  else if hasIndexOf "STOP".toList val || hasIndexOf "stop".toList val then
    let s :=
      if direction = 1 then
        { s with currentTarget := uint16 ((s.lastPosition : Int) + s.targetThreshold * 2) }
      else if direction = 2 then
        { s with currentTarget := uint16 ((s.lastPosition : Int) - s.targetThreshold * 2) }
      else s
    let s := serialPrint "STOP at " s
    serialPrintln (toString s.currentTarget) s
  else if hasIndexOf ['T'] val || hasIndexOf "t".toList val then
    let threshold := uint8 (toInt (substring 1 val))
    storeThreshold threshold s
  else
    if toInt val > 150 ∧ toInt val < 6400 then
      let s := serialPrint "New Target " s
      let s := serialPrintln (String.mk val) s
      { s with currentTarget := uint16 (toInt val) }
    else
      serialPrintln "Not stored. Keep your value between 150 and 6400" s

/-- Lines 185-190: `frame` is what `lin_processor::readNextFrame` delivers in this pass of
`loop`, if it delivers one. -/
def pollFrame (frame : Option LinFrame) (s : State) : State :=
  match frame with
  | some f => processLINFrame f s
  | none => s

/-- Lines 177-233: one pass of `loop`.  `frame` is what `lin_processor::readNextFrame`
delivers in this pass, `input` the text `Serial.readString` returns when
`Serial.available() > 0`. -/
def loop (frame : Option LinFrame) (input : Option (List Char)) (s : State) : State :=
  let s := pollFrame frame s
  let direction := desiredTableDirection s
  let s := moveTable direction s
  match input with
  | some val => serialCommand direction val s
  | none => s

/-- The sketch run on a sequence of passes of `loop`, each with its frame and its line. -/
def run (ticks : List (Option LinFrame × Option (List Char))) (s : State) : State :=
  ticks.foldl (fun s t => loop t.1 t.2 s) s

/-- A sequence of calls of `moveTable`. -/
def moveTableAll (directions : List Nat) (s : State) : State :=
  directions.foldl (fun s d => moveTable d s) s

/-- The state after each `digitalWrite` of a sequence of calls of `moveTable`, in order. -/
def moveTableAllSteps : List Nat → State → List State
  | [], _ => []
  | d :: ds, s => moveTableSteps d s ++ moveTableAllSteps ds (moveTable d s)

/-! ## Predicates of the specification -/

/-- Both motion outputs are asserted: the pins are active low. -/
def bothAsserted (s : State) : Prop := s.upPin = LOW ∧ s.downPin = LOW

instance (s : State) : Decidable (bothAsserted s) := by
  unfold bothAsserted; infer_instance

/-- The pins agree with `currentTableMovement`: stopped with both pins HIGH, moving up with
the up pin alone LOW, or moving down with the down pin alone LOW. -/
def motionInv (s : State) : Prop :=
  (s.currentTableMovement = 0 ∧ s.upPin = HIGH ∧ s.downPin = HIGH) ∨
  (s.currentTableMovement = 1 ∧ s.upPin = LOW ∧ s.downPin = HIGH) ∨
  (s.currentTableMovement = 2 ∧ s.upPin = HIGH ∧ s.downPin = LOW)

/-- A position frame: identifier `0x92`, then the low byte and the high byte of `position`
in the arrangement `processLINFrame` decodes. -/
def positionFrame (position : Nat) : LinFrame :=
  ⟨[0x92, position % 256, position / 256 % 256]⟩

/-- The valid range of the threshold: strictly between 50 and 254. -/
def validThreshold (t : Nat) : Prop := 50 < t ∧ t < 254

instance (t : Nat) : Decidable (validThreshold t) := by
  unfold validThreshold; infer_instance

/-- The call `storeThreshold(value)` accepts: it prints the confirmation. -/
def thresholdAccepted (value : Nat) (s : State) : Prop :=
  (storeThreshold value s).serial = s.serial ++ ["New Threshold: ", toString value ++ "\r\n"]

/-- The call `storeThreshold(value)` rejects: it prints the diagnostic. -/
def thresholdRejected (value : Nat) (s : State) : Prop :=
  (storeThreshold value s).serial =
    s.serial ++ ["Not stored. Keep your value between 50 and 254\r\n"]

/-- A decimal digit character. -/
def isDigitChar (c : Char) : Prop := 48 ≤ c.toNat ∧ c.toNat ≤ 57

instance (c : Char) : Decidable (isDigitChar c) := by
  unfold isDigitChar; infer_instance

/-- Lines 116-122: the value `temp` that `processLINFrame` assembles from a frame. -/
def decodedPosition (frame : LinFrame) : Nat :=
  uint16 ((frame.get_byte 2 : Int) * 256) ||| frame.get_byte 1

/-- Lines 110-122: the position a frame carries, if its identifier is `0x92`. -/
def framePosition (frame : LinFrame) : Option Nat :=
  if frame.get_byte 0 = 0x92 then some (decodedPosition frame) else none

/-- Passes of `loop` that each deliver one frame and no console line. -/
def frameTicks (frames : List LinFrame) : List (Option LinFrame × Option (List Char)) :=
  frames.map (fun f => (some f, none))

/-- The text does not begin with a decimal digit. -/
def noDigitFirst : List Char → Prop
  | [] => True
  | c :: _ => ¬ isDigitChar c

instance (rest : List Char) : Decidable (noDigitFirst rest) := by
  cases rest <;> unfold noDigitFirst <;> infer_instance

/-- The line does not start with a number: after white space and one optional sign, no
decimal digit follows. -/
def noLeadingNumber (val : List Char) : Prop :=
  match val.dropWhile isspace with
  | [] => True
  | c :: r => if c = '-' ∨ c = '+' then noDigitFirst r else ¬ isDigitChar c

instance (val : List Char) : Decidable (noLeadingNumber val) := by
  unfold noLeadingNumber
  split <;> infer_instance

/-- A console line that starts with a number: the white space `ws`, the sign `sgn` (none,
`+` or `-`), `k` zeros, the decimal digits of `n`, and then the text `rest`. -/
def numberLine (ws sgn : List Char) (k n : Nat) (rest : List Char) : List Char :=
  ws ++ sgn ++ List.replicate k '0' ++ Nat.toDigits 10 n ++ rest

/-! # Theorems -/

/-! ## The motion outputs -/

theorem setup_pins (persisted : Nat) :
    (setup persisted).upPin = HIGH ∧ (setup persisted).downPin = HIGH ∧
      (setup persisted).currentTableMovement = 0 := by
  unfold setup
  by_cases h : persisted = 255 <;>
    simp [reset, h, storeThreshold, printValues, serialPrint, serialPrintln, digitalWrite,
      moveTableUpPin, moveTableDownPin]

theorem moveTableSteps_not_bothAsserted (d : Nat) (s x : State)
    (hx : x ∈ moveTableSteps d s) : ¬ bothAsserted x := by
  unfold moveTableSteps at hx
  unfold bothAsserted
  split_ifs at hx <;>
    simp [digitalWrite, serialPrintln, moveTableUpPin, moveTableDownPin] at hx <;>
    rcases hx with hx | hx <;> subst hx <;> simp

theorem moveTableAllSteps_not_bothAsserted (ds : List Nat) :
    ∀ (s x : State), x ∈ moveTableAllSteps ds s → ¬ bothAsserted x := by
  induction ds with
  | nil => intro s x hx; simp [moveTableAllSteps] at hx
  | cons d ds ih =>
    intro s x hx
    simp only [moveTableAllSteps, List.mem_append] at hx
    rcases hx with hx | hx
    · exact moveTableSteps_not_bothAsserted d s x hx
    · exact ih _ x hx

/-- The state a call of `moveTable` ends in is the state after its last `digitalWrite`,
and the state it started in when it writes nothing. -/
theorem moveTable_eq_last (d : Nat) (s : State) :
    moveTable d s = (moveTableSteps d s).getLastD s := by
  unfold moveTable moveTableSteps
  split_ifs <;> simp

/-- C1: from the state left by `setup` (both pins HIGH, `currentTableMovement = 0`), for
every persisted byte and every finite sequence of `moveTable` calls with arbitrary
directions, the up pin and the down pin are never both LOW after any single
`digitalWrite` of any call. -/
theorem C1_never_both_asserted (persisted : Nat) (directions : List Nat) :
    (setup persisted).upPin = HIGH ∧ (setup persisted).downPin = HIGH ∧
    (setup persisted).currentTableMovement = 0 ∧
    ∀ x ∈ moveTableAllSteps directions (setup persisted),
      ¬ (x.upPin = LOW ∧ x.downPin = LOW) := by
  obtain ⟨h1, h2, h3⟩ := setup_pins persisted
  exact ⟨h1, h2, h3, fun x hx =>
    moveTableAllSteps_not_bothAsserted directions (setup persisted) x hx⟩

theorem moveTable_motionInv (d : Nat) (s : State) (hd : d = 0 ∨ d = 1 ∨ d = 2)
    (hs : motionInv s) : motionInv (moveTable d s) := by
  unfold moveTable
  split_ifs with h h0 h1
  · subst h0
    simp [motionInv, digitalWrite, serialPrintln, moveTableUpPin, moveTableDownPin]
  · subst h1
    simp [motionInv, digitalWrite, serialPrintln, moveTableUpPin, moveTableDownPin]
  · have h2 : d = 2 := by omega
    subst h2
    simp [motionInv, digitalWrite, serialPrintln, moveTableUpPin, moveTableDownPin]
  · exact hs

theorem moveTableAll_motionInv (ds : List Nat) :
    ∀ s : State, (∀ d ∈ ds, d = 0 ∨ d = 1 ∨ d = 2) → motionInv s →
      motionInv (moveTableAll ds s) := by
  induction ds with
  | nil => intro s _ hs; exact hs
  | cons d ds ih =>
    intro s hd hs
    have h1 := moveTable_motionInv d s (hd d (List.mem_cons_self d ds)) hs
    exact ih (moveTable d s) (fun e he => hd e (List.mem_cons_of_mem d he)) h1

theorem motionInv_iff (s : State) (hs : motionInv s) :
    ((s.upPin = HIGH ∧ s.downPin = HIGH) ↔ s.currentTableMovement = 0) ∧
    ((s.upPin = LOW ∧ s.downPin = HIGH) ↔ s.currentTableMovement = 1) ∧
    ((s.upPin = HIGH ∧ s.downPin = LOW) ↔ s.currentTableMovement = 2) := by
  rcases hs with ⟨hc, hu, hd⟩ | ⟨hc, hu, hd⟩ | ⟨hc, hu, hd⟩ <;> simp [hc, hu, hd]

/-- C2: from the state left by `setup`, after each call of any sequence of `moveTable`
calls with directions in {0,1,2} (the first `k` calls, for every `k`): both pins are HIGH
iff `currentTableMovement = 0`, the up pin alone is LOW iff `currentTableMovement = 1`,
and the down pin alone is LOW iff `currentTableMovement = 2`. -/
theorem C2_motion_invariant (persisted : Nat) (directions : List Nat)
    (hdir : ∀ d ∈ directions, d = 0 ∨ d = 1 ∨ d = 2) (k : Nat) :
    (((moveTableAll (directions.take k) (setup persisted)).upPin = HIGH ∧
        (moveTableAll (directions.take k) (setup persisted)).downPin = HIGH) ↔
      (moveTableAll (directions.take k) (setup persisted)).currentTableMovement = 0) ∧
    (((moveTableAll (directions.take k) (setup persisted)).upPin = LOW ∧
        (moveTableAll (directions.take k) (setup persisted)).downPin = HIGH) ↔
      (moveTableAll (directions.take k) (setup persisted)).currentTableMovement = 1) ∧
    (((moveTableAll (directions.take k) (setup persisted)).upPin = HIGH ∧
        (moveTableAll (directions.take k) (setup persisted)).downPin = LOW) ↔
      (moveTableAll (directions.take k) (setup persisted)).currentTableMovement = 2) := by
  apply motionInv_iff
  apply moveTableAll_motionInv
  · intro d hd
    exact hdir d (List.mem_of_mem_take hd)
  · obtain ⟨h1, h2, h3⟩ := setup_pins persisted
    exact Or.inl ⟨h3, h1, h2⟩

/-- C2 at the calls `moveTable(1)`, `moveTable(2)`, `moveTable(2)`, `moveTable(0)`,
`moveTable(1)` after a first start (persisted byte 255), observed after the fourth. -/
theorem C2_motion_invariant_witness :
    (∀ d ∈ [1, 2, 2, 0, 1], d = 0 ∨ d = 1 ∨ d = 2) ∧
    (((moveTableAll ([1, 2, 2, 0, 1].take 4) (setup 255)).upPin = HIGH ∧
        (moveTableAll ([1, 2, 2, 0, 1].take 4) (setup 255)).downPin = HIGH) ↔
      (moveTableAll ([1, 2, 2, 0, 1].take 4) (setup 255)).currentTableMovement = 0) ∧
    (((moveTableAll ([1, 2, 2, 0, 1].take 4) (setup 255)).upPin = LOW ∧
        (moveTableAll ([1, 2, 2, 0, 1].take 4) (setup 255)).downPin = HIGH) ↔
      (moveTableAll ([1, 2, 2, 0, 1].take 4) (setup 255)).currentTableMovement = 1) ∧
    (((moveTableAll ([1, 2, 2, 0, 1].take 4) (setup 255)).upPin = HIGH ∧
        (moveTableAll ([1, 2, 2, 0, 1].take 4) (setup 255)).downPin = LOW) ↔
      (moveTableAll ([1, 2, 2, 0, 1].take 4) (setup 255)).currentTableMovement = 2) :=
  ⟨by decide, C2_motion_invariant 255 [1, 2, 2, 0, 1] (by decide) 4⟩

/-! ## The direction decision -/

/-- While position and target are less than `2^15` apart, the 16-bit `distance` is the
true difference, and `desiredTableDirection` decides on the true distance. -/
theorem desiredTableDirection_near (s : State)
    (hnear : (s.lastPosition : Int) - s.currentTarget < 32768 ∧
      (s.currentTarget : Int) - s.lastPosition < 32768) :
    desiredTableDirection s =
      if ((s.lastPosition : Int) - s.currentTarget).natAbs ≤ s.targetThreshold then 0
      else if s.lastPosition < s.currentTarget then 1 else 2 := by
  unfold desiredTableDirection abs int16 uint16
  simp only []
  split_ifs <;> omega

/-- C3, at the failing input: after a first start, the frame with position 65535
(which becomes the target) and the frame with position 0, the threshold is 120 and the
true distance is 65535, yet `desiredTableDirection` returns 0 and the table stays
stopped: the 16-bit `distance` is `0 - 65535 = 1`. -/
theorem C3_level_at_distance_65535 :
    (run [(some (positionFrame 65535), none), (some (positionFrame 0), none)]
        (setup 255)).lastPosition = 0 ∧
    (run [(some (positionFrame 65535), none), (some (positionFrame 0), none)]
        (setup 255)).currentTarget = 65535 ∧
    (run [(some (positionFrame 65535), none), (some (positionFrame 0), none)]
        (setup 255)).targetThreshold = 120 ∧
    desiredTableDirection (run [(some (positionFrame 65535), none),
        (some (positionFrame 0), none)] (setup 255)) = 0 ∧
    (run [(some (positionFrame 65535), none), (some (positionFrame 0), none)]
        (setup 255)).currentTableMovement = 0 ∧
    ¬ ((0 : Int) - 65535).natAbs ≤ 120 := by
  decide

/-- C4, at the failing input: after a first start, the frame with position 40000
(which becomes the target) and the frame with position 0, the position is below the target
by 40000, more than the threshold 120, yet `desiredTableDirection` returns 2 and the
table is driven down: the 16-bit `distance` is `0 - 40000 = 25536 > 0`. -/
theorem C4_below_although_position_less :
    (run [(some (positionFrame 40000), none), (some (positionFrame 0), none)]
        (setup 255)).lastPosition = 0 ∧
    (run [(some (positionFrame 40000), none), (some (positionFrame 0), none)]
        (setup 255)).currentTarget = 40000 ∧
    (run [(some (positionFrame 40000), none), (some (positionFrame 0), none)]
        (setup 255)).targetThreshold = 120 ∧
    desiredTableDirection (run [(some (positionFrame 40000), none),
        (some (positionFrame 0), none)] (setup 255)) = 2 ∧
    (run [(some (positionFrame 40000), none), (some (positionFrame 0), none)]
        (setup 255)).currentTableMovement = 2 ∧
    (run [(some (positionFrame 40000), none), (some (positionFrame 0), none)]
        (setup 255)).downPin = LOW := by
  decide

/-! ## Fields the functions of the sketch leave alone -/

theorem desiredTableDirection_le (s : State) : desiredTableDirection s ≤ 2 := by
  unfold desiredTableDirection
  simp only []
  split_ifs <;> omega

theorem desiredTableDirection_congr (s t : State) (hp : s.lastPosition = t.lastPosition)
    (ht : s.currentTarget = t.currentTarget) (hth : s.targetThreshold = t.targetThreshold) :
    desiredTableDirection s = desiredTableDirection t := by
  unfold desiredTableDirection
  rw [hp, ht, hth]

theorem moveTable_fields (d : Nat) (s : State) :
    (moveTable d s).lastPosition = s.lastPosition ∧
    (moveTable d s).currentTarget = s.currentTarget ∧
    (moveTable d s).initializedTarget = s.initializedTarget ∧
    (moveTable d s).targetThreshold = s.targetThreshold ∧
    (moveTable d s).eeprom0 = s.eeprom0 ∧
    (moveTable d s).currentTableMovement = d := by
  unfold moveTable
  split_ifs with h <;>
    simp [digitalWrite, serialPrintln, moveTableUpPin, moveTableDownPin]
  omega

theorem moveTable_same (d : Nat) (s : State) (h : s.currentTableMovement = d) :
    moveTable d s = s := by
  unfold moveTable
  simp [h]

theorem processLINFrame_fields (f : LinFrame) (s : State) :
    (processLINFrame f s).targetThreshold = s.targetThreshold ∧
    (processLINFrame f s).eeprom0 = s.eeprom0 ∧
    (processLINFrame f s).currentTableMovement = s.currentTableMovement ∧
    (processLINFrame f s).upPin = s.upPin ∧
    (processLINFrame f s).downPin = s.downPin := by
  unfold processLINFrame
  simp only []
  split_ifs <;> simp [serialPrint, serialPrintln]

theorem pollFrame_fields (f : Option LinFrame) (s : State) :
    (pollFrame f s).targetThreshold = s.targetThreshold ∧
    (pollFrame f s).eeprom0 = s.eeprom0 ∧
    (pollFrame f s).currentTableMovement = s.currentTableMovement ∧
    (pollFrame f s).upPin = s.upPin ∧
    (pollFrame f s).downPin = s.downPin := by
  cases f with
  | none => simp [pollFrame]
  | some f => exact processLINFrame_fields f s

theorem serialCommand_stop (d : Nat) (val : List Char) (s : State)
    (hHelp : (hasIndexOf "HELP".toList val || hasIndexOf "help".toList val) = false)
    (hValues : (hasIndexOf "VALUES".toList val || hasIndexOf "values".toList val) = false)
    (hStop : (hasIndexOf "STOP".toList val || hasIndexOf "stop".toList val) = true) :
    (serialCommand d val s).lastPosition = s.lastPosition ∧
    (serialCommand d val s).targetThreshold = s.targetThreshold ∧
    (serialCommand d val s).eeprom0 = s.eeprom0 ∧
    (serialCommand d val s).initializedTarget = s.initializedTarget ∧
    (serialCommand d val s).currentTableMovement = s.currentTableMovement ∧
    (serialCommand d val s).upPin = s.upPin ∧
    (serialCommand d val s).downPin = s.downPin ∧
    (serialCommand d val s).currentTarget =
      if d = 1 then uint16 ((s.lastPosition : Int) + s.targetThreshold * 2)
      else if d = 2 then uint16 ((s.lastPosition : Int) - s.targetThreshold * 2)
      else s.currentTarget := by
  unfold serialCommand
  rw [hHelp, hValues, hStop]
  simp only [Bool.false_eq_true, if_false, if_true]
  split_ifs <;> simp [serialPrint, serialPrintln]


theorem stop_direction (s t : State) (hth0 : 0 < s.targetThreshold)
    (hth : s.targetThreshold < 256) (hdir : desiredTableDirection s ≠ 0)
    (hp : t.lastPosition = s.lastPosition) (hthr : t.targetThreshold = s.targetThreshold)
    (ht : t.currentTarget =
      if desiredTableDirection s = 1 then uint16 ((s.lastPosition : Int) + s.targetThreshold * 2)
      else if desiredTableDirection s = 2 then
        uint16 ((s.lastPosition : Int) - s.targetThreshold * 2)
      else s.currentTarget) :
    desiredTableDirection t = desiredTableDirection s := by
  have hle := desiredTableDirection_le s
  by_cases h1 : desiredTableDirection s = 1
  · rw [h1] at ht ⊢
    simp only [if_true] at ht
    unfold desiredTableDirection abs int16 uint16
    rw [hp, hthr, ht]
    unfold uint16
    simp only []
    split_ifs <;> omega
  · have h2 : desiredTableDirection s = 2 := by omega
    rw [h2] at ht ⊢
    simp only [if_true] at ht
    unfold desiredTableDirection abs int16 uint16
    rw [hp, hthr, ht]
    unfold uint16
    simp only []
    split_ifs <;> omega


/-! ## The STOP command -/

/-- C5, refuted as stated: after a first start, a frame with position 3000 and the target
command `5000`, the direction is 1 (Above) and the table moves up; after `STOP` the
target is 3240 and the direction recomputed from the same position and threshold is
still 1, not 0, and the next pass of `loop` without a frame leaves the up pin asserted. -/
theorem C5_stop_not_level :
    desiredTableDirection (run [(some (positionFrame 3000), none),
      (none, some "5000".toList)] (setup 255)) = 1 ∧
    (run [(some (positionFrame 3000), none), (none, some "5000".toList),
      (none, some "STOP".toList)] (setup 255)).lastPosition = 3000 ∧
    (run [(some (positionFrame 3000), none), (none, some "5000".toList),
      (none, some "STOP".toList)] (setup 255)).currentTarget = 3240 ∧
    (run [(some (positionFrame 3000), none), (none, some "5000".toList),
      (none, some "STOP".toList)] (setup 255)).targetThreshold = 120 ∧
    desiredTableDirection (run [(some (positionFrame 3000), none),
      (none, some "5000".toList), (none, some "STOP".toList)] (setup 255)) ≠ 0 ∧
    (run [(some (positionFrame 3000), none), (none, some "5000".toList),
      (none, some "STOP".toList), (none, none)] (setup 255)).currentTableMovement = 1 ∧
    (run [(some (positionFrame 3000), none), (none, some "5000".toList),
      (none, some "STOP".toList), (none, none)] (setup 255)).upPin = LOW := by
  decide

/-- C5, amended: in a pass of `loop` whose line is handled as STOP and in which the
computed direction is Above or Below, with a threshold from 1 to 255, the position and
the threshold are unchanged and the direction recomputed from them and the new target is
the same direction as before, not Level; `currentTableMovement` is that direction, and the
next pass of `loop` with no frame and no line changes nothing: the table keeps moving. -/
theorem C5_stop_keeps_direction (s : State) (frame : Option LinFrame) (val : List Char)
    (hth0 : 0 < s.targetThreshold) (hth : s.targetThreshold < 256)
    (hHelp : (hasIndexOf "HELP".toList val || hasIndexOf "help".toList val) = false)
    (hValues : (hasIndexOf "VALUES".toList val || hasIndexOf "values".toList val) = false)
    (hStop : (hasIndexOf "STOP".toList val || hasIndexOf "stop".toList val) = true)
    (hdir : desiredTableDirection (pollFrame frame s) ≠ 0) :
    (loop frame (some val) s).lastPosition = (pollFrame frame s).lastPosition ∧
    (loop frame (some val) s).targetThreshold = s.targetThreshold ∧
    desiredTableDirection (loop frame (some val) s) =
      desiredTableDirection (pollFrame frame s) ∧
    (loop frame (some val) s).currentTableMovement =
      desiredTableDirection (pollFrame frame s) ∧
    loop none none (loop frame (some val) s) = loop frame (some val) s := by
  obtain ⟨m1, m2, m3, m4, m5, m6⟩ :=
    moveTable_fields (desiredTableDirection (pollFrame frame s)) (pollFrame frame s)
  obtain ⟨c1, c2, c3, c4, c5, c6, c7, c8⟩ :=
    serialCommand_stop (desiredTableDirection (pollFrame frame s)) val
      (moveTable (desiredTableDirection (pollFrame frame s)) (pollFrame frame s))
      hHelp hValues hStop
  obtain ⟨p1, p2, p3, p4, p5⟩ := pollFrame_fields frame s
  have hl : loop frame (some val) s =
      serialCommand (desiredTableDirection (pollFrame frame s)) val
        (moveTable (desiredTableDirection (pollFrame frame s)) (pollFrame frame s)) := rfl
  have hd : desiredTableDirection (loop frame (some val) s) =
      desiredTableDirection (pollFrame frame s) := by
    apply stop_direction (pollFrame frame s) (loop frame (some val) s)
    · rw [p1]; exact hth0
    · rw [p1]; exact hth
    · exact hdir
    · rw [hl, c1, m1]
    · rw [hl, c2, m4]
    · rw [hl, c8, m1, m4, m2]
  have hm : (loop frame (some val) s).currentTableMovement =
      desiredTableDirection (pollFrame frame s) := by rw [hl, c5, m6]
  refine ⟨by rw [hl, c1, m1], by rw [hl, c2, m4, p1], hd, hm, ?_⟩
  show moveTable (desiredTableDirection (pollFrame none (loop frame (some val) s)))
      (pollFrame none (loop frame (some val) s)) = _
  simp only [pollFrame]
  exact moveTable_same _ _ (by rw [hm, hd])

/-- C5, amended, at the pass that handles `STOP` after a first start, a frame with
position 3000 and the target command `5000`. -/
theorem C5_stop_keeps_direction_witness :
    (0 < (run [(some (positionFrame 3000), none), (none, some "5000".toList)]
      (setup 255)).targetThreshold ∧
    (run [(some (positionFrame 3000), none), (none, some "5000".toList)]
      (setup 255)).targetThreshold < 256 ∧
    (hasIndexOf "HELP".toList "STOP".toList || hasIndexOf "help".toList "STOP".toList)
      = false ∧
    (hasIndexOf "VALUES".toList "STOP".toList || hasIndexOf "values".toList "STOP".toList)
      = false ∧
    (hasIndexOf "STOP".toList "STOP".toList || hasIndexOf "stop".toList "STOP".toList)
      = true ∧
    desiredTableDirection (pollFrame none (run [(some (positionFrame 3000), none),
      (none, some "5000".toList)] (setup 255))) ≠ 0) ∧
    ((loop none (some "STOP".toList) (run [(some (positionFrame 3000), none),
        (none, some "5000".toList)] (setup 255))).lastPosition =
      (pollFrame none (run [(some (positionFrame 3000), none),
        (none, some "5000".toList)] (setup 255))).lastPosition ∧
    (loop none (some "STOP".toList) (run [(some (positionFrame 3000), none),
        (none, some "5000".toList)] (setup 255))).targetThreshold =
      (run [(some (positionFrame 3000), none), (none, some "5000".toList)]
        (setup 255)).targetThreshold ∧
    desiredTableDirection (loop none (some "STOP".toList)
        (run [(some (positionFrame 3000), none), (none, some "5000".toList)] (setup 255))) =
      desiredTableDirection (pollFrame none (run [(some (positionFrame 3000), none),
        (none, some "5000".toList)] (setup 255))) ∧
    (loop none (some "STOP".toList) (run [(some (positionFrame 3000), none),
        (none, some "5000".toList)] (setup 255))).currentTableMovement =
      desiredTableDirection (pollFrame none (run [(some (positionFrame 3000), none),
        (none, some "5000".toList)] (setup 255))) ∧
    loop none none (loop none (some "STOP".toList)
        (run [(some (positionFrame 3000), none), (none, some "5000".toList)] (setup 255))) =
      loop none (some "STOP".toList)
        (run [(some (positionFrame 3000), none), (none, some "5000".toList)] (setup 255))) :=
  ⟨by decide,
    C5_stop_keeps_direction
      (run [(some (positionFrame 3000), none), (none, some "5000".toList)] (setup 255))
      none "STOP".toList (by decide) (by decide) (by decide) (by decide) (by decide)
      (by decide)⟩

/-! ## The threshold -/

theorem storeThreshold_fields (value : Nat) (s : State) :
    (storeThreshold value s).lastPosition = s.lastPosition ∧
    (storeThreshold value s).currentTarget = s.currentTarget ∧
    (storeThreshold value s).initializedTarget = s.initializedTarget ∧
    (storeThreshold value s).currentTableMovement = s.currentTableMovement ∧
    (storeThreshold value s).upPin = s.upPin ∧
    (storeThreshold value s).downPin = s.downPin ∧
    (storeThreshold value s).targetThreshold =
      (if 50 < value ∧ value < 254 then value else s.targetThreshold) ∧
    (storeThreshold value s).eeprom0 =
      (if 50 < value ∧ value < 254 then value else s.eeprom0) := by
  unfold storeThreshold
  split_ifs <;> simp [serialPrint, serialPrintln]

theorem thresholdAccepted_iff (value : Nat) (s : State) :
    thresholdAccepted value s ↔ (50 < value ∧ value < 254) := by
  unfold thresholdAccepted storeThreshold
  split_ifs with h
  · exact ⟨fun _ => h, fun _ => by simp [serialPrint, serialPrintln]⟩
  · refine ⟨fun hc => ?_, fun hn => absurd hn h⟩
    have := congrArg List.length hc
    simp [serialPrintln] at this

theorem thresholdRejected_iff (value : Nat) (s : State) :
    thresholdRejected value s ↔ ¬ (50 < value ∧ value < 254) := by
  unfold thresholdRejected storeThreshold
  split_ifs with h
  · refine ⟨fun hc => ?_, fun hn => absurd h hn⟩
    have := congrArg List.length hc
    simp [serialPrint, serialPrintln] at this
  · exact ⟨fun _ => h, fun _ => by simp [serialPrintln]⟩

/-- C7: for every value, `storeThreshold(value)` accepts (prints the confirmation) iff
`50 < value < 254` and rejects (prints the diagnostic) iff not; on acceptance the live
`targetThreshold` and the persisted byte become `value`, on rejection both are unchanged;
49, 50, 254 and 255 are rejected, 51 and 253 are accepted. -/
theorem C7_storeThreshold_validation (value : Nat) (s : State) :
    (thresholdAccepted value s ↔ (50 < value ∧ value < 254)) ∧
    (thresholdRejected value s ↔ ¬ (50 < value ∧ value < 254)) ∧
    (storeThreshold value s).targetThreshold =
      (if 50 < value ∧ value < 254 then value else s.targetThreshold) ∧
    (storeThreshold value s).eeprom0 =
      (if 50 < value ∧ value < 254 then value else s.eeprom0) ∧
    (thresholdRejected 49 s ∧ thresholdRejected 50 s ∧ thresholdRejected 254 s ∧
      thresholdRejected 255 s) ∧
    (thresholdAccepted 51 s ∧ thresholdAccepted 253 s) := by
  obtain ⟨_, _, _, _, _, _, h7, h8⟩ := storeThreshold_fields value s
  refine ⟨thresholdAccepted_iff value s, thresholdRejected_iff value s, h7, h8, ?_, ?_⟩
  · simp [thresholdRejected_iff]
  · simp [thresholdAccepted_iff]

theorem setup_targetThreshold (persisted : Nat) :
    (setup persisted).targetThreshold = if persisted = 255 then 120 else persisted := by
  unfold setup
  by_cases h : persisted = 255 <;>
    simp [reset, h, storeThreshold, printValues, serialPrint, serialPrintln, digitalWrite,
      moveTableUpPin, moveTableDownPin]

theorem serialCommand_targetThreshold (d : Nat) (val : List Char) (s : State) :
    (serialCommand d val s).targetThreshold = s.targetThreshold ∨
      validThreshold (serialCommand d val s).targetThreshold := by
  unfold serialCommand
  split_ifs
  · left; simp [printHelp, serialPrintln]
  · left; simp [printValues, serialPrint, serialPrintln]
  · left; simp [serialPrint, serialPrintln]
  · left; simp [serialPrint, serialPrintln]
  · left; simp [serialPrint, serialPrintln]
  · obtain ⟨_, _, _, _, _, _, h7, _⟩ :=
      storeThreshold_fields (uint8 (toInt (substring 1 val))) s
    simp only [] 
    rw [h7]
    split_ifs with h
    · right; exact h
    · left; rfl
  · left; simp [serialPrint, serialPrintln]
  · left; simp [serialPrintln]

theorem loop_validThreshold (frame : Option LinFrame) (input : Option (List Char))
    (s : State) (h : validThreshold s.targetThreshold) :
    validThreshold (loop frame input s).targetThreshold := by
  obtain ⟨p1, _⟩ := pollFrame_fields frame s
  obtain ⟨_, _, _, m4, _⟩ :=
    moveTable_fields (desiredTableDirection (pollFrame frame s)) (pollFrame frame s)
  cases input with
  | none =>
    show validThreshold
      (moveTable (desiredTableDirection (pollFrame frame s)) (pollFrame frame s)).targetThreshold
    rw [m4, p1]; exact h
  | some val =>
    show validThreshold (serialCommand (desiredTableDirection (pollFrame frame s)) val
      (moveTable (desiredTableDirection (pollFrame frame s))
        (pollFrame frame s))).targetThreshold
    rcases serialCommand_targetThreshold (desiredTableDirection (pollFrame frame s)) val
      (moveTable (desiredTableDirection (pollFrame frame s)) (pollFrame frame s)) with h1 | h1
    · rw [h1, m4, p1]; exact h
    · exact h1

theorem run_validThreshold (ticks : List (Option LinFrame × Option (List Char))) :
    ∀ s : State, validThreshold s.targetThreshold →
      validThreshold (run ticks s).targetThreshold := by
  induction ticks with
  | nil => intro s h; exact h
  | cons t ticks ih =>
    intro s h
    exact ih _ (loop_validThreshold t.1 t.2 s h)

/-- C6, refuted as stated: with the persisted byte 10 at EEPROM address 0, `setup` takes
10 as the live threshold (only the byte 255 is replaced by the default), and it is still
10 after a pass of `loop`; with the persisted byte 254 the live threshold is 254. -/
theorem C6_invalid_persisted_byte :
    (setup 10).targetThreshold = 10 ∧
    ¬ (50 < (setup 10).targetThreshold ∧ (setup 10).targetThreshold < 254) ∧
    ¬ (50 < (run [(none, none)] (setup 10)).targetThreshold ∧
      (run [(none, none)] (setup 10)).targetThreshold < 254) ∧
    ¬ (50 < (setup 254).targetThreshold ∧ (setup 254).targetThreshold < 254) := by
  decide

/-- C6, amended: when the persisted byte found at EEPROM address 0 is the sentinel 255 or
is itself strictly between 50 and 254, then after `setup` and after any sequence of passes
of `loop` with any frames and console lines, `50 < targetThreshold < 254`. -/
theorem C6_threshold_stays_valid (persisted : Nat)
    (hp : persisted = 255 ∨ (50 < persisted ∧ persisted < 254))
    (ticks : List (Option LinFrame × Option (List Char))) :
    50 < (run ticks (setup persisted)).targetThreshold ∧
      (run ticks (setup persisted)).targetThreshold < 254 := by
  apply run_validThreshold
  rw [setup_targetThreshold]
  unfold validThreshold
  split_ifs with h
  · omega
  · rcases hp with hp | hp
    · exact absurd hp h
    · exact hp

/-- C6, amended, at a first start followed by a position frame with the line `t200`, the
line `T9` and the line `t456`. -/
theorem C6_threshold_stays_valid_witness :
    ((255 : Nat) = 255 ∨ (50 < 255 ∧ 255 < 254)) ∧
    (50 < (run [(some (positionFrame 3000), some "t200".toList), (none, some "T9".toList),
        (none, some "t456".toList)] (setup 255)).targetThreshold ∧
      (run [(some (positionFrame 3000), some "t200".toList), (none, some "T9".toList),
        (none, some "t456".toList)] (setup 255)).targetThreshold < 254) :=
  ⟨by decide, C6_threshold_stays_valid 255 (by decide)
    [(some (positionFrame 3000), some "t200".toList), (none, some "T9".toList),
      (none, some "t456".toList)]⟩

/-! ## The threshold command -/

theorem digitChar_spec (d : Nat) (h : d < 10) :
    isDigitChar (Nat.digitChar d) ∧ (Nat.digitChar d).toNat - 48 = d := by
  unfold isDigitChar
  interval_cases d <;> decide

theorem atolDigits_append (xs ys : List Char) (h : ∀ c ∈ xs, isDigitChar c) :
    ∀ acc, atolDigits acc (xs ++ ys) = atolDigits (atolDigits acc xs) ys := by
  induction xs with
  | nil => intro acc; rfl
  | cons c cs ih =>
    intro acc
    have hc : 48 ≤ c.toNat ∧ c.toNat ≤ 57 := h c (List.mem_cons_self c cs)
    simp only [List.cons_append, atolDigits, hc, and_self, if_true]
    exact ih (fun e he => h e (List.mem_cons_of_mem c he)) _

theorem toDigitsCore_spec (fuel : Nat) :
    ∀ (n : Nat) (ds : List Char), n < fuel →
      ∃ xs, Nat.toDigitsCore 10 fuel n ds = xs ++ ds ∧ (∀ c ∈ xs, isDigitChar c) ∧
        atolDigits 0 xs = n := by
  induction fuel with
  | zero => intro n ds h; omega
  | succ fuel ih =>
    intro n ds h
    obtain ⟨hd1, hd2⟩ := digitChar_spec (n % 10) (Nat.mod_lt n (by decide))
    unfold Nat.toDigitsCore
    by_cases h0 : n / 10 = 0
    · refine ⟨[Nat.digitChar (n % 10)], by simp [h0], ?_, ?_⟩
      · intro c hc
        simp only [List.mem_singleton] at hc
        rw [hc]; exact hd1
      · unfold isDigitChar at hd1
        simp only [atolDigits, hd1, and_self, if_true, hd2]
        omega
    · obtain ⟨xs, e1, e2, e3⟩ := ih (n / 10) (Nat.digitChar (n % 10) :: ds) (by omega)
      refine ⟨xs ++ [Nat.digitChar (n % 10)], by simp [h0, e1], ?_, ?_⟩
      · intro c hc
        simp only [List.mem_append, List.mem_singleton] at hc
        rcases hc with hc | hc
        · exact e2 c hc
        · rw [hc]; exact hd1
      · rw [atolDigits_append xs _ e2, e3]
        unfold isDigitChar at hd1
        simp only [atolDigits, hd1, and_self, if_true, hd2]
        omega

theorem toDigits_spec (n : Nat) :
    (∀ c ∈ Nat.toDigits 10 n, isDigitChar c) ∧ atolDigits 0 (Nat.toDigits 10 n) = n := by
  obtain ⟨xs, e1, e2, e3⟩ := toDigitsCore_spec (n + 1) n [] (by omega)
  unfold Nat.toDigits
  rw [e1, List.append_nil]
  exact ⟨e2, e3⟩

theorem char_ne_of_toNat_ne (a b : Char) (h : a.toNat ≠ b.toNat) : a ≠ b := by
  intro hab; exact h (by rw [hab])

theorem atol_digits (xs : List Char) (h : ∀ c ∈ xs, isDigitChar c) :
    atol xs = int32 (atolDigits 0 xs) := by
  cases xs with
  | nil => simp [atol, atolDigits, int32]
  | cons c r =>
    have hc : 48 ≤ c.toNat ∧ c.toNat ≤ 57 := h c (List.mem_cons_self c r)
    have hsp : isspace c = false := by
      unfold isspace
      simp only [Bool.or_eq_false_iff, decide_eq_false_iff_not, Bool.and_eq_false_iff]
      omega
    have hm : c ≠ '-' := char_ne_of_toNat_ne _ _ (by
      have : ('-' : Char).toNat = 45 := by decide
      omega)
    have hp : c ≠ '+' := char_ne_of_toNat_ne _ _ (by
      have : ('+' : Char).toNat = 43 := by decide
      omega)
    unfold atol
    simp [List.dropWhile, hsp, hm, hp]

theorem uint8_int32 (n : Nat) : uint8 (int32 n) = n % 256 := by
  unfold uint8 int32
  omega

theorem startsWith_head_ne (p c : Char) (ps cs : List Char) (h : p ≠ c) :
    startsWith (p :: ps) (c :: cs) = false := by
  simp [startsWith, h]

theorem hasIndexOf_not_mem (p : Char) (ps : List Char) :
    ∀ val : List Char, p ∉ val → hasIndexOf (p :: ps) val = false := by
  intro val
  induction val with
  | nil => intro _; rfl
  | cons c cs ih =>
    intro h
    simp only [List.mem_cons, not_or] at h
    simp only [hasIndexOf, Bool.or_eq_false_iff]
    exact ⟨startsWith_head_ne p c ps cs h.1, ih h.2⟩

theorem not_mem_command_line (p c : Char) (xs : List Char) (hp : ¬ isDigitChar p)
    (hpc : p ≠ c) (h : ∀ x ∈ xs, isDigitChar x) : p ∉ c :: xs := by
  intro hm
  rcases List.mem_cons.mp hm with hm | hm
  · exact hpc hm
  · exact hp (h p hm)

theorem serialCommand_threshold_line (c : Char) (hc : c = 'T' ∨ c = 't') (xs : List Char)
    (h : ∀ x ∈ xs, isDigitChar x) (d : Nat) (s : State) :
    serialCommand d (c :: xs) s = storeThreshold (uint8 (toInt xs)) s := by
  have hHELP : hasIndexOf "HELP".toList (c :: xs) = false :=
    hasIndexOf_not_mem 'H' _ _ (not_mem_command_line _ _ _ (by decide)
      (by rcases hc with hc | hc <;> rw [hc] <;> decide) h)
  have hhelp : hasIndexOf "help".toList (c :: xs) = false :=
    hasIndexOf_not_mem 'h' _ _ (not_mem_command_line _ _ _ (by decide)
      (by rcases hc with hc | hc <;> rw [hc] <;> decide) h)
  have hVALUES : hasIndexOf "VALUES".toList (c :: xs) = false :=
    hasIndexOf_not_mem 'V' _ _ (not_mem_command_line _ _ _ (by decide)
      (by rcases hc with hc | hc <;> rw [hc] <;> decide) h)
  have hvalues : hasIndexOf "values".toList (c :: xs) = false :=
    hasIndexOf_not_mem 'v' _ _ (not_mem_command_line _ _ _ (by decide)
      (by rcases hc with hc | hc <;> rw [hc] <;> decide) h)
  have hSTOP : hasIndexOf "STOP".toList (c :: xs) = false :=
    hasIndexOf_not_mem 'S' _ _ (not_mem_command_line _ _ _ (by decide)
      (by rcases hc with hc | hc <;> rw [hc] <;> decide) h)
  have hstop : hasIndexOf "stop".toList (c :: xs) = false :=
    hasIndexOf_not_mem 's' _ _ (not_mem_command_line _ _ _ (by decide)
      (by rcases hc with hc | hc <;> rw [hc] <;> decide) h)
  have hT : (hasIndexOf ['T'] (c :: xs) || hasIndexOf "t".toList (c :: xs)) = true := by
    rcases hc with hc | hc <;> rw [hc] <;> simp [hasIndexOf, startsWith]
  unfold serialCommand
  rw [hHELP, hhelp, hVALUES, hvalues, hSTOP, hstop, hT]
  simp [substring]

theorem serialCommand_threshold_digits (c : Char) (hc : c = 'T' ∨ c = 't') (n d : Nat) (s : State) :
    (serialCommand d (c :: Nat.toDigits 10 n) s).targetThreshold =
      (if 50 < n % 256 ∧ n % 256 < 254 then n % 256 else s.targetThreshold) ∧
    (serialCommand d (c :: Nat.toDigits 10 n) s).eeprom0 =
      (if 50 < n % 256 ∧ n % 256 < 254 then n % 256 else s.eeprom0) ∧
    (serialCommand d (c :: Nat.toDigits 10 n) s).currentTarget = s.currentTarget ∧
    (serialCommand d (c :: Nat.toDigits 10 n) s).lastPosition = s.lastPosition := by
  obtain ⟨hdig, hval⟩ := toDigits_spec n
  rw [serialCommand_threshold_line c hc _ hdig d s]
  have hv : uint8 (toInt (Nat.toDigits 10 n)) = n % 256 := by
    unfold toInt
    rw [atol_digits _ hdig, hval, uint8_int32]
  rw [hv]
  obtain ⟨f1, f2, _, _, _, _, f7, f8⟩ := storeThreshold_fields (n % 256) s
  exact ⟨f7, f8, f2, f1⟩


/-- C8, refuted as stated: after a first start (threshold 120) the line `t456` makes the
live and the persisted threshold 200, although 456 is not strictly between 50 and 254:
the parsed number is converted to `uint8_t`, and 456 mod 256 = 200. -/
theorem C8_threshold_456 :
    "t456".toList = 't' :: Nat.toDigits 10 456 ∧
    ¬ (50 < 456 ∧ 456 < 254) ∧
    (setup 255).targetThreshold = 120 ∧ (setup 255).eeprom0 = 120 ∧
    (serialCommand 0 "t456".toList (setup 255)).targetThreshold = 200 ∧
    (serialCommand 0 "t456".toList (setup 255)).eeprom0 = 200 := by
  decide

/-- C8, amended: for every console line consisting of `T` or `t` followed by the decimal
digits of a natural number `n` (such a line contains none of HELP, VALUES, STOP), the
number is reduced to 8 bits, `n mod 256` (which is `n` up to the documented maximum 255):
the live and the persisted threshold become `n mod 256` if `50 < n mod 256 < 254`, and
otherwise threshold and persisted byte are unchanged; target and position are unchanged
in both cases; e.g. `t200` makes the threshold 200. -/
theorem C8_threshold_command (c : Char) (hc : c = 'T' ∨ c = 't') (n d : Nat) (s : State) :
    ((serialCommand d (c :: Nat.toDigits 10 n) s).targetThreshold =
      (if 50 < n % 256 ∧ n % 256 < 254 then n % 256 else s.targetThreshold) ∧
    (serialCommand d (c :: Nat.toDigits 10 n) s).eeprom0 =
      (if 50 < n % 256 ∧ n % 256 < 254 then n % 256 else s.eeprom0) ∧
    (serialCommand d (c :: Nat.toDigits 10 n) s).currentTarget = s.currentTarget ∧
    (serialCommand d (c :: Nat.toDigits 10 n) s).lastPosition = s.lastPosition) ∧
    ((serialCommand d "t200".toList s).targetThreshold = 200 ∧
      (serialCommand d "t200".toList s).eeprom0 = 200) := by
  refine ⟨serialCommand_threshold_digits c hc n d s, ?_⟩
  have h200 : "t200".toList = 't' :: Nat.toDigits 10 200 := by decide
  obtain ⟨h1, h2, _, _⟩ := serialCommand_threshold_digits 't' (Or.inr rfl) 200 d s
  rw [h200, h1, h2]
  simp

/-- C8, amended, at the line `T77` after a first start. -/
theorem C8_threshold_command_witness :
    ('T' = 'T' ∨ 'T' = 't') ∧
    (((serialCommand 0 ('T' :: Nat.toDigits 10 77) (setup 255)).targetThreshold =
      (if 50 < 77 % 256 ∧ 77 % 256 < 254 then 77 % 256 else (setup 255).targetThreshold) ∧
    (serialCommand 0 ('T' :: Nat.toDigits 10 77) (setup 255)).eeprom0 =
      (if 50 < 77 % 256 ∧ 77 % 256 < 254 then 77 % 256 else (setup 255).eeprom0) ∧
    (serialCommand 0 ('T' :: Nat.toDigits 10 77) (setup 255)).currentTarget =
      (setup 255).currentTarget ∧
    (serialCommand 0 ('T' :: Nat.toDigits 10 77) (setup 255)).lastPosition =
      (setup 255).lastPosition) ∧
    ((serialCommand 0 "t200".toList (setup 255)).targetThreshold = 200 ∧
      (serialCommand 0 "t200".toList (setup 255)).eeprom0 = 200)) :=
  ⟨Or.inl rfl, C8_threshold_command 'T' (Or.inl rfl) 77 0 (setup 255)⟩

/-! ## Letter case in the dispatch -/

theorem char_eq_iff (a b : Char) : a = b ↔ a.toNat = b.toNat := by
  constructor
  · intro h; rw [h]
  · intro h
    rw [← Char.ofNat_toNat a, ← Char.ofNat_toNat b, h]

theorem toNat_ofNat_ascii (n : Nat) (h : n < 128) : (Char.ofNat n).toNat = n := by
  interval_cases n <;> rfl

theorem toUpper_toNat (c : Char) :
    c.toUpper.toNat = if 97 ≤ c.toNat ∧ c.toNat ≤ 122 then c.toNat - 32 else c.toNat := by
  unfold Char.toUpper
  simp only [ge_iff_le]
  split_ifs with h
  · exact toNat_ofNat_ascii _ (by omega)
  · rfl

theorem toLower_toNat (c : Char) :
    c.toLower.toNat = if 65 ≤ c.toNat ∧ c.toNat ≤ 90 then c.toNat + 32 else c.toNat := by
  unfold Char.toLower
  simp only [ge_iff_le]
  split_ifs with h
  · exact toNat_ofNat_ascii _ (by omega)
  · rfl

/-- An upper-case letter `p` and its lower-case form `q` against the two foldings of a
character. -/
theorem letter_rel (p q : Char) (hp : 65 ≤ p.toNat ∧ p.toNat ≤ 90)
    (hq : q.toNat = p.toNat + 32) (c : Char) :
    (p = c.toUpper ↔ q = c.toLower) ∧ q ≠ c.toUpper ∧ p ≠ c.toLower := by
  rw [char_eq_iff p, char_eq_iff q, Ne, Ne, char_eq_iff q, char_eq_iff p, toUpper_toNat,
    toLower_toNat]
  split_ifs <;> omega

theorem startsWith_fold (P Q : List Char)
    (h : List.Forall₂ (fun p q => ∀ c : Char, p = c.toUpper ↔ q = c.toLower) P Q) :
    ∀ val : List Char,
      startsWith P (val.map Char.toUpper) = startsWith Q (val.map Char.toLower) := by
  induction h with
  | nil => intro val; simp [startsWith]
  | @cons p q ps qs hpq _ ih =>
    intro val
    cases val with
    | nil => simp [startsWith]
    | cons c cs =>
      simp only [List.map_cons, startsWith, ih cs]
      have := hpq c
      by_cases h1 : p = c.toUpper <;> simp_all

theorem hasIndexOf_fold (P Q : List Char)
    (h : List.Forall₂ (fun p q => ∀ c : Char, p = c.toUpper ↔ q = c.toLower) P Q) :
    ∀ val : List Char,
      hasIndexOf P (val.map Char.toUpper) = hasIndexOf Q (val.map Char.toLower) := by
  intro val
  induction val with
  | nil => simp [hasIndexOf]
  | cons c cs ih =>
    have := startsWith_fold P Q h (c :: cs)
    simp only [List.map_cons] at this
    simp only [List.map_cons, hasIndexOf, ih, this]

theorem hasIndexOf_map_ne (p : Char) (ps : List Char) (f : Char → Char)
    (h : ∀ c, p ≠ f c) (val : List Char) : hasIndexOf (p :: ps) (val.map f) = false := by
  apply hasIndexOf_not_mem
  intro hm
  obtain ⟨c, _, hc⟩ := List.mem_map.mp hm
  exact h c hc.symm

/-- A keyword in upper case `P` and in lower case `Q`: the test the dispatch makes,
`val.indexOf(P) != -1 || val.indexOf(Q) != -1`, gives the same on the upper-case and on
the lower-case form of a line. -/
theorem keyword_fold (p q : Char) (ps qs : List Char)
    (hp : 65 ≤ p.toNat ∧ p.toNat ≤ 90) (hq : q.toNat = p.toNat + 32)
    (h : List.Forall₂ (fun p q => ∀ c : Char, p = c.toUpper ↔ q = c.toLower) ps qs)
    (val : List Char) :
    (hasIndexOf (p :: ps) (val.map Char.toUpper) ||
        hasIndexOf (q :: qs) (val.map Char.toUpper)) =
      (hasIndexOf (p :: ps) (val.map Char.toLower) ||
        hasIndexOf (q :: qs) (val.map Char.toLower)) := by
  rw [hasIndexOf_map_ne q qs Char.toUpper (fun c => (letter_rel p q hp hq c).2.1),
    hasIndexOf_map_ne p ps Char.toLower (fun c => (letter_rel p q hp hq c).2.2),
    hasIndexOf_fold (p :: ps) (q :: qs)
      (List.Forall₂.cons (fun c => (letter_rel p q hp hq c).1) h)]
  simp

theorem isspace_iff (c : Char) :
    isspace c = true ↔ (c.toNat = 32 ∨ (9 ≤ c.toNat ∧ c.toNat ≤ 13)) := by
  simp [isspace]

theorem isspace_fold (c : Char) :
    isspace c.toUpper = isspace c ∧ isspace c.toLower = isspace c := by
  constructor
  · rw [Bool.eq_iff_iff]
    simp only [isspace_iff, toUpper_toNat]
    split_ifs <;> omega
  · rw [Bool.eq_iff_iff]
    simp only [isspace_iff, toLower_toNat]
    split_ifs <;> omega

theorem dropWhile_isspace_map (f : Char → Char) (hf : ∀ c, isspace (f c) = isspace c) :
    ∀ xs : List Char,
      (xs.map f).dropWhile isspace = (xs.dropWhile isspace).map f := by
  intro xs
  induction xs with
  | nil => rfl
  | cons c cs ih =>
    simp only [List.map_cons, List.dropWhile_cons, hf c]
    split_ifs
    · exact ih
    · rfl

theorem atolDigits_fold : ∀ (xs : List Char) (acc : Nat),
    atolDigits acc (xs.map Char.toUpper) = atolDigits acc (xs.map Char.toLower) := by
  intro xs
  induction xs with
  | nil => intro acc; rfl
  | cons c cs ih =>
    intro acc
    simp only [List.map_cons, atolDigits, toUpper_toNat, toLower_toNat]
    by_cases hd : 48 ≤ c.toNat ∧ c.toNat ≤ 57
    · have h1 : ¬ (97 ≤ c.toNat ∧ c.toNat ≤ 122) := by omega
      have h2 : ¬ (65 ≤ c.toNat ∧ c.toNat ≤ 90) := by omega
      simp only [h1, h2, if_false, hd, and_self, if_true]
      exact ih _
    · have h1 : ¬ (48 ≤ (if 97 ≤ c.toNat ∧ c.toNat ≤ 122 then c.toNat - 32 else c.toNat) ∧
          (if 97 ≤ c.toNat ∧ c.toNat ≤ 122 then c.toNat - 32 else c.toNat) ≤ 57) := by
        split_ifs <;> omega
      have h2 : ¬ (48 ≤ (if 65 ≤ c.toNat ∧ c.toNat ≤ 90 then c.toNat + 32 else c.toNat) ∧
          (if 65 ≤ c.toNat ∧ c.toNat ≤ 90 then c.toNat + 32 else c.toNat) ≤ 57) := by
        split_ifs <;> omega
      rw [if_neg h1, if_neg h2]

theorem sign_fold (c sgn : Char) (hs : sgn.toNat < 65) :
    (c.toUpper = sgn ↔ c = sgn) ∧ (c.toLower = sgn ↔ c = sgn) := by
  rw [char_eq_iff c.toUpper, char_eq_iff c.toLower, char_eq_iff c, toUpper_toNat,
    toLower_toNat]
  constructor <;> split_ifs <;> omega

theorem atol_fold (xs : List Char) :
    atol (xs.map Char.toUpper) = atol (xs.map Char.toLower) := by
  unfold atol
  rw [dropWhile_isspace_map Char.toUpper (fun c => (isspace_fold c).1),
    dropWhile_isspace_map Char.toLower (fun c => (isspace_fold c).2)]
  cases xs.dropWhile isspace with
  | nil => rfl
  | cons c r =>
    have hm := sign_fold c '-' (by decide)
    have hp := sign_fold c '+' (by decide)
    have hd := atolDigits_fold r 0
    have hd2 := atolDigits_fold (c :: r) 0
    simp only [List.map_cons] at hd2 ⊢
    by_cases h1 : c = '-'
    · simp [hm.1.mpr h1, hm.2.mpr h1, hd]
    · have a1 : ¬ c.toUpper = '-' := fun h => h1 (hm.1.mp h)
      have a2 : ¬ c.toLower = '-' := fun h => h1 (hm.2.mp h)
      by_cases h2 : c = '+'
      · simp [a1, a2, hp.1.mpr h2, hp.2.mpr h2, hd]
      · have b1 : ¬ c.toUpper = '+' := fun h => h2 (hp.1.mp h)
        have b2 : ¬ c.toLower = '+' := fun h => h2 (hp.2.mp h)
        simp [a1, a2, b1, b2, hd2]

theorem letter_fold (p q : Char) (hp : 65 ≤ p.toNat ∧ p.toNat ≤ 90) (hq : q.toNat = p.toNat + 32) :
    ∀ c : Char, p = c.toUpper ↔ q = c.toLower :=
  fun c => (letter_rel p q hp hq c).1

/-- C9, refuted as stated: `STOP` and `Stop` are equal after case folding, yet from the
state after a first start, a frame with position 3000 and the target command `5000`
(direction Above), the pass of `loop` with the line `STOP` makes the target 3240, while
with the line `Stop` the target stays 5000: `Stop` contains neither `STOP` nor `stop`, it
contains `t` and is handled as a threshold command. -/
theorem C9_stop_mixed_case :
    "STOP".toList.map Char.toLower = "Stop".toList.map Char.toLower ∧
    (loop none (some "STOP".toList) (run [(some (positionFrame 3000), none),
      (none, some "5000".toList)] (setup 255))).currentTarget = 3240 ∧
    (loop none (some "Stop".toList) (run [(some (positionFrame 3000), none),
      (none, some "5000".toList)] (setup 255))).currentTarget = 5000 ∧
    (loop none (some "STOP".toList) (run [(some (positionFrame 3000), none),
      (none, some "5000".toList)] (setup 255))).currentTarget ≠
    (loop none (some "Stop".toList) (run [(some (positionFrame 3000), none),
      (none, some "5000".toList)] (setup 255))).currentTarget := by
  decide

/-- C9, amended: the dispatch knows each keyword in upper case and in lower case only.
For every line, its form in upper case and its form in lower case (such as `STOP` and
`stop`) select the same command: processing either from the same state, with the same
direction, yields the same position, target, threshold and persisted byte. -/
theorem C9_upper_lower_same (val : List Char) (d : Nat) (s : State) :
    (serialCommand d (val.map Char.toUpper) s).lastPosition =
      (serialCommand d (val.map Char.toLower) s).lastPosition ∧
    (serialCommand d (val.map Char.toUpper) s).currentTarget =
      (serialCommand d (val.map Char.toLower) s).currentTarget ∧
    (serialCommand d (val.map Char.toUpper) s).targetThreshold =
      (serialCommand d (val.map Char.toLower) s).targetThreshold ∧
    (serialCommand d (val.map Char.toUpper) s).eeprom0 =
      (serialCommand d (val.map Char.toLower) s).eeprom0 := by
  have eH : (hasIndexOf "HELP".toList (val.map Char.toUpper) ||
      hasIndexOf "help".toList (val.map Char.toUpper)) =
      (hasIndexOf "HELP".toList (val.map Char.toLower) ||
      hasIndexOf "help".toList (val.map Char.toLower)) :=
    keyword_fold 'H' 'h' ['E', 'L', 'P'] ['e', 'l', 'p'] (by decide) (by decide)
      (.cons (letter_fold 'E' 'e' (by decide) (by decide)) (.cons (letter_fold 'L' 'l' (by decide) (by decide))
        (.cons (letter_fold 'P' 'p' (by decide) (by decide)) .nil))) val
  have eV : (hasIndexOf "VALUES".toList (val.map Char.toUpper) ||
      hasIndexOf "values".toList (val.map Char.toUpper)) =
      (hasIndexOf "VALUES".toList (val.map Char.toLower) ||
      hasIndexOf "values".toList (val.map Char.toLower)) :=
    keyword_fold 'V' 'v' ['A', 'L', 'U', 'E', 'S'] ['a', 'l', 'u', 'e', 's'] (by decide)
      (by decide)
      (.cons (letter_fold 'A' 'a' (by decide) (by decide)) (.cons (letter_fold 'L' 'l' (by decide) (by decide))
        (.cons (letter_fold 'U' 'u' (by decide) (by decide)) (.cons (letter_fold 'E' 'e' (by decide) (by decide))
          (.cons (letter_fold 'S' 's' (by decide) (by decide)) .nil))))) val
  have eS : (hasIndexOf "STOP".toList (val.map Char.toUpper) ||
      hasIndexOf "stop".toList (val.map Char.toUpper)) =
      (hasIndexOf "STOP".toList (val.map Char.toLower) ||
      hasIndexOf "stop".toList (val.map Char.toLower)) :=
    keyword_fold 'S' 's' ['T', 'O', 'P'] ['t', 'o', 'p'] (by decide) (by decide)
      (.cons (letter_fold 'T' 't' (by decide) (by decide)) (.cons (letter_fold 'O' 'o' (by decide) (by decide))
        (.cons (letter_fold 'P' 'p' (by decide) (by decide)) .nil))) val
  have eT : (hasIndexOf ['T'] (val.map Char.toUpper) ||
      hasIndexOf "t".toList (val.map Char.toUpper)) =
      (hasIndexOf ['T'] (val.map Char.toLower) ||
      hasIndexOf "t".toList (val.map Char.toLower)) :=
    keyword_fold 'T' 't' [] [] (by decide) (by decide) .nil val
  have eI : toInt (val.map Char.toUpper) = toInt (val.map Char.toLower) := atol_fold val
  have eJ : toInt (substring 1 (val.map Char.toUpper)) =
      toInt (substring 1 (val.map Char.toLower)) := by
    unfold substring toInt
    rw [← List.map_drop, ← List.map_drop]
    exact atol_fold _
  unfold serialCommand
  rw [eH, eV, eS, eT, eI, eJ]
  split_ifs <;> simp [printHelp, printValues, serialPrint, serialPrintln]

/-! ## The numeric target command -/

theorem serialCommand_target (val : List Char) (d : Nat) (s : State)
    (hHelp : (hasIndexOf "HELP".toList val || hasIndexOf "help".toList val) = false)
    (hValues : (hasIndexOf "VALUES".toList val || hasIndexOf "values".toList val) = false)
    (hStop : (hasIndexOf "STOP".toList val || hasIndexOf "stop".toList val) = false)
    (hT : (hasIndexOf ['T'] val || hasIndexOf "t".toList val) = false) :
    (serialCommand d val s).currentTarget =
      (if 150 < toInt val ∧ toInt val < 6400 then (toInt val).toNat else s.currentTarget) ∧
    (serialCommand d val s).lastPosition = s.lastPosition ∧
    (serialCommand d val s).targetThreshold = s.targetThreshold ∧
    (serialCommand d val s).currentTableMovement = s.currentTableMovement ∧
    (serialCommand d val s).upPin = s.upPin ∧
    (serialCommand d val s).downPin = s.downPin ∧
    (serialCommand d val s).eeprom0 = s.eeprom0 ∧
    (serialCommand d val s).initializedTarget = s.initializedTarget := by
  unfold serialCommand
  rw [hHelp, hValues, hStop, hT]
  simp only [Bool.false_eq_true, if_false]
  split_ifs with h
  · simp only [serialPrint, serialPrintln, and_self, and_true]
    unfold uint16
    omega
  · simp [serialPrintln]

theorem atolDigits_stop (acc : Nat) (rest : List Char)
    (h : noDigitFirst rest) : atolDigits acc rest = acc := by
  cases rest with
  | nil => rfl
  | cons c r =>
    have hc : ¬ (48 ≤ c.toNat ∧ c.toNat ≤ 57) := h
    simp only [atolDigits, hc, if_false]

theorem atolDigits_zeros (k : Nat) : atolDigits 0 (List.replicate k '0') = 0 := by
  induction k with
  | zero => rfl
  | succ k ih =>
    have h0 : (48 ≤ ('0' : Char).toNat ∧ ('0' : Char).toNat ≤ 57) := by decide
    have e : ('0' : Char).toNat - 48 = 0 := by decide
    simp only [List.replicate_succ, atolDigits, h0, and_self, if_true, e]
    exact ih

theorem toDigits_ne_nil (n : Nat) : Nat.toDigits 10 n ≠ [] := by
  intro h
  have hs := (toDigits_spec n).2
  rw [h] at hs
  have h0 : n = 0 := hs.symm
  rw [h0] at h
  exact absurd h (by decide)

/-- Zeros, then the decimal digits of `n`, then text that does not begin with a digit:
the digit loop of `atol` reads `n`. -/
theorem atolDigits_number (k n : Nat) (rest : List Char)
    (hrest : noDigitFirst rest) :
    atolDigits 0 (List.replicate k '0' ++ Nat.toDigits 10 n ++ rest) = n := by
  obtain ⟨hd, hv⟩ := toDigits_spec n
  have hz : ∀ c ∈ List.replicate k '0', isDigitChar c := by
    intro c hc
    rw [(List.mem_replicate.mp hc).2]
    decide
  rw [List.append_assoc, atolDigits_append _ _ hz, atolDigits_zeros,
    atolDigits_append _ _ hd, hv, atolDigits_stop n rest hrest]

theorem dropWhile_isspace_append (ws r : List Char) (hws : ∀ c ∈ ws, isspace c = true) :
    (ws ++ r).dropWhile isspace = r.dropWhile isspace := by
  induction ws with
  | nil => rfl
  | cons c cs ih =>
    have hc : isspace c = true := hws c (List.mem_cons_self c cs)
    simp only [List.cons_append, List.dropWhile_cons, hc, if_true]
    exact ih (fun e he => hws e (List.mem_cons_of_mem c he))

theorem int32_small (z : Int) (h1 : -2147483648 ≤ z) (h2 : z < 2147483648) :
    int32 z = z := by
  unfold int32
  omega

theorem isDigitChar_not_space (c : Char) (hc : isDigitChar c) :
    isspace c = false ∧ c ≠ '-' ∧ c ≠ '+' := by
  unfold isDigitChar at hc
  refine ⟨?_, ?_, ?_⟩
  · unfold isspace
    simp only [Bool.or_eq_false_iff, decide_eq_false_iff_not, Bool.and_eq_false_iff]
    omega
  · exact char_ne_of_toNat_ne _ _ (by
      have : ('-' : Char).toNat = 45 := by decide
      omega)
  · exact char_ne_of_toNat_ne _ _ (by
      have : ('+' : Char).toNat = 43 := by decide
      omega)

/-- White space, an optional sign, zeros, the decimal digits of `n < 2^31` and then text
that does not begin with a digit: `toInt` is `n`, negated after a minus sign. -/
theorem toInt_number (ws sgn rest : List Char) (k n : Nat)
    (hws : ∀ c ∈ ws, isspace c = true)
    (hsgn : sgn = [] ∨ sgn = ['+'] ∨ sgn = ['-'])
    (hn : n < 2147483648)
    (hrest : noDigitFirst rest) :
    toInt (numberLine ws sgn k n rest) =
      if sgn = ['-'] then -(n : Int) else (n : Int) := by
  unfold numberLine
  have hnum := atolDigits_number k n rest hrest
  have e : ws ++ sgn ++ List.replicate k '0' ++ Nat.toDigits 10 n ++ rest =
      ws ++ (sgn ++ (List.replicate k '0' ++ Nat.toDigits 10 n ++ rest)) := by
    simp [List.append_assoc]
  unfold toInt atol
  rw [e, dropWhile_isspace_append ws _ hws]
  have hnum2 : atolDigits 0 (List.replicate k '0' ++ (Nat.toDigits 10 n ++ rest)) = n := by
    rw [← List.append_assoc]; exact hnum
  have hi : int32 (n : Int) = n := int32_small _ (by omega) (by omega)
  have hj : int32 (-(n : Int)) = -(n : Int) := int32_small _ (by omega) (by omega)
  rcases hsgn with h | h | h
  · subst h
    simp only [List.nil_append]
    cases hL : List.replicate k '0' ++ Nat.toDigits 10 n ++ rest with
    | nil =>
      exfalso
      have : Nat.toDigits 10 n = [] := by
        have := congrArg List.length hL
        simp only [List.length_append, List.length_nil] at this
        exact List.length_eq_zero.mp (by omega)
      exact toDigits_ne_nil n this
    | cons c r =>
      have hc : isDigitChar c := by
        have hd := (toDigits_spec n).1
        cases k with
        | zero =>
          simp only [List.replicate_zero, List.nil_append] at hL
          cases hT : Nat.toDigits 10 n with
          | nil => exact absurd hT (toDigits_ne_nil n)
          | cons c0 r0 =>
            rw [hT] at hL hd
            simp only [List.cons_append, List.cons.injEq] at hL
            rw [← hL.1]
            exact hd c0 (List.mem_cons_self c0 r0)
        | succ k =>
          simp only [List.replicate_succ, List.cons_append, List.cons.injEq] at hL
          rw [← hL.1]
          decide
      obtain ⟨h1, h2, h3⟩ := isDigitChar_not_space c hc
      rw [hL] at hnum
      simp [List.dropWhile_cons, h1, h2, h3, hnum, hi]
  · subst h
    have hsp : isspace '+' = false := by decide
    simp [List.dropWhile_cons, hsp, hnum2, hi]
  · subst h
    have hsp : isspace '-' = false := by decide
    simp [List.dropWhile_cons, hsp, hnum2, hj]

theorem toInt_noLeadingNumber (val : List Char) (h : noLeadingNumber val) :
    toInt val = 0 := by
  unfold noLeadingNumber at h
  unfold toInt atol
  cases hL : val.dropWhile isspace with
  | nil => rfl
  | cons c r =>
    rw [hL] at h
    simp only [] at h
    by_cases hm : c = '-'
    · rw [if_pos (Or.inl hm)] at h
      simp only [hm, if_true, atolDigits_stop 0 r h]
      rfl
    · by_cases hp : c = '+'
      · rw [if_pos (Or.inr hp)] at h
        simp only [hm, if_false, hp, if_true, atolDigits_stop 0 r h]
        rfl
      · rw [if_neg (by simp [hm, hp])] at h
        have hc : ¬ (48 ≤ c.toNat ∧ c.toNat ≤ 57) := h
        simp only [hm, hp, if_false, atolDigits, hc]
        rfl


theorem serialCommand_number (ws sgn rest : List Char) (k n d : Nat) (s : State)
    (hws : ∀ c ∈ ws, isspace c = true)
    (hsgn : sgn = [] ∨ sgn = ['+'] ∨ sgn = ['-'])
    (hn : n < 2147483648)
    (hrest : noDigitFirst rest)
    (hHelp : (hasIndexOf "HELP".toList (numberLine ws sgn k n rest) ||
      hasIndexOf "help".toList (numberLine ws sgn k n rest)) = false)
    (hValues : (hasIndexOf "VALUES".toList (numberLine ws sgn k n rest) ||
      hasIndexOf "values".toList (numberLine ws sgn k n rest)) = false)
    (hStop : (hasIndexOf "STOP".toList (numberLine ws sgn k n rest) ||
      hasIndexOf "stop".toList (numberLine ws sgn k n rest)) = false)
    (hT : (hasIndexOf ['T'] (numberLine ws sgn k n rest) ||
      hasIndexOf "t".toList (numberLine ws sgn k n rest)) = false) :
    toInt (numberLine ws sgn k n rest) = (if sgn = ['-'] then -(n : Int) else (n : Int)) ∧
    (serialCommand d (numberLine ws sgn k n rest) s).currentTarget =
      (if sgn ≠ ['-'] ∧ 150 < n ∧ n < 6400 then n else s.currentTarget) ∧
    (serialCommand d (numberLine ws sgn k n rest) s).lastPosition = s.lastPosition ∧
    (serialCommand d (numberLine ws sgn k n rest) s).targetThreshold = s.targetThreshold ∧
    (serialCommand d (numberLine ws sgn k n rest) s).currentTableMovement =
      s.currentTableMovement := by
  have hv := toInt_number ws sgn rest k n hws hsgn hn hrest
  obtain ⟨t1, t2, t3, t4, _⟩ :=
    serialCommand_target (numberLine ws sgn k n rest) d s hHelp hValues hStop hT
  refine ⟨hv, ?_, t2, t3, t4⟩
  rw [t1, hv]
  by_cases hm : sgn = ['-']
  · simp only [hm, if_true, ne_eq, not_true_eq_false, false_and, if_false]
    rw [if_neg (by omega)]
  · simp only [hm, if_false, ne_eq, not_false_eq_true, true_and]
    by_cases hr : 150 < n ∧ n < 6400
    · rw [if_pos hr, if_pos (by omega)]
      simp
    · rw [if_neg hr, if_neg (by omega)]

theorem serialCommand_noNumber (val : List Char) (d : Nat) (s : State)
    (hno : noLeadingNumber val)
    (hHelp : (hasIndexOf "HELP".toList val || hasIndexOf "help".toList val) = false)
    (hValues : (hasIndexOf "VALUES".toList val || hasIndexOf "values".toList val) = false)
    (hStop : (hasIndexOf "STOP".toList val || hasIndexOf "stop".toList val) = false)
    (hT : (hasIndexOf ['T'] val || hasIndexOf "t".toList val) = false) :
    toInt val = 0 ∧
    (serialCommand d val s).currentTarget = s.currentTarget ∧
    (serialCommand d val s).lastPosition = s.lastPosition ∧
    (serialCommand d val s).targetThreshold = s.targetThreshold ∧
    (serialCommand d val s).currentTableMovement = s.currentTableMovement := by
  have hv := toInt_noLeadingNumber val hno
  obtain ⟨t1, t2, t3, t4, _⟩ := serialCommand_target val d s hHelp hValues hStop hT
  refine ⟨hv, ?_, t2, t3, t4⟩
  rw [t1, hv]
  simp

/-- C10, refuted as stated: the lines `3000abc` and `200 mm` match none of the HELP,
VALUES, STOP and `T`/`t` branches and are not the decimal digits of any number, yet after
a first start (target 0) the pass of `loop` with the line `3000abc` sets the target to
3000 and the pass with the line `200 mm` sets it to 200: `toInt` reads the digits the
line starts with and ignores the text after them. -/
theorem C10_trailing_text_accepted :
    ((hasIndexOf "HELP".toList "3000abc".toList || hasIndexOf "help".toList "3000abc".toList)
      = false ∧
    (hasIndexOf "VALUES".toList "3000abc".toList ||
      hasIndexOf "values".toList "3000abc".toList) = false ∧
    (hasIndexOf "STOP".toList "3000abc".toList || hasIndexOf "stop".toList "3000abc".toList)
      = false ∧
    (hasIndexOf ['T'] "3000abc".toList || hasIndexOf "t".toList "3000abc".toList) = false) ∧
    (∀ n : Nat, "3000abc".toList ≠ Nat.toDigits 10 n) ∧
    (∀ n : Nat, "200 mm".toList ≠ Nat.toDigits 10 n) ∧
    (setup 255).currentTarget = 0 ∧
    toInt "3000abc".toList = 3000 ∧
    (loop none (some "3000abc".toList) (setup 255)).currentTarget = 3000 ∧
    (loop none (some "200 mm".toList) (setup 255)).currentTarget = 200 := by
  refine ⟨by decide, ?_, ?_, by decide, by decide, by decide, by decide⟩
  · intro n h
    have hd := (toDigits_spec n).1 'a' (by rw [← h]; decide)
    exact absurd hd (by decide)
  · intro n h
    have hd := (toDigits_spec n).1 'm' (by rw [← h]; decide)
    exact absurd hd (by decide)

/-- C10, amended: for every console line that matches none of the HELP, VALUES, STOP and
`T`/`t` branches, `v` is the number the line starts with.  If the line is white space
`ws`, a sign `sgn` (none, `+` or `-`), zeros, the decimal digits of `n < 2^31` and then
any text `rest` that does not begin with a digit, then `toInt` gives `n` (`-n` after a
minus sign) and the target becomes `n` if there is no minus sign and `150 < n < 6400`, and
is unchanged otherwise.  If in the line `other` no digit follows the white space and the
optional sign, then `toInt` gives 0 and the target is unchanged.  Position, threshold and
`currentTableMovement` are unchanged in every case.  `3000` sets the target to 3000,
`7000` leaves it unchanged, `3000abc` sets it to 3000 and `abc` leaves it unchanged. -/
theorem C10_target_command (ws sgn rest other : List Char) (k n d : Nat) (s : State)
    (hws : ∀ c ∈ ws, isspace c = true)
    (hsgn : sgn = [] ∨ sgn = ['+'] ∨ sgn = ['-'])
    (hn : n < 2147483648)
    (hrest : noDigitFirst rest)
    (hHelp : (hasIndexOf "HELP".toList (numberLine ws sgn k n rest) ||
      hasIndexOf "help".toList (numberLine ws sgn k n rest)) = false)
    (hValues : (hasIndexOf "VALUES".toList (numberLine ws sgn k n rest) ||
      hasIndexOf "values".toList (numberLine ws sgn k n rest)) = false)
    (hStop : (hasIndexOf "STOP".toList (numberLine ws sgn k n rest) ||
      hasIndexOf "stop".toList (numberLine ws sgn k n rest)) = false)
    (hT : (hasIndexOf ['T'] (numberLine ws sgn k n rest) ||
      hasIndexOf "t".toList (numberLine ws sgn k n rest)) = false) :
    (toInt (numberLine ws sgn k n rest) = (if sgn = ['-'] then -(n : Int) else (n : Int)) ∧
    (serialCommand d (numberLine ws sgn k n rest) s).currentTarget =
      (if sgn ≠ ['-'] ∧ 150 < n ∧ n < 6400 then n else s.currentTarget) ∧
    (serialCommand d (numberLine ws sgn k n rest) s).lastPosition = s.lastPosition ∧
    (serialCommand d (numberLine ws sgn k n rest) s).targetThreshold = s.targetThreshold ∧
    (serialCommand d (numberLine ws sgn k n rest) s).currentTableMovement =
      s.currentTableMovement) ∧
    (noLeadingNumber other →
      (hasIndexOf "HELP".toList other || hasIndexOf "help".toList other) = false →
      (hasIndexOf "VALUES".toList other || hasIndexOf "values".toList other) = false →
      (hasIndexOf "STOP".toList other || hasIndexOf "stop".toList other) = false →
      (hasIndexOf ['T'] other || hasIndexOf "t".toList other) = false →
      toInt other = 0 ∧
      (serialCommand d other s).currentTarget = s.currentTarget ∧
      (serialCommand d other s).lastPosition = s.lastPosition ∧
      (serialCommand d other s).targetThreshold = s.targetThreshold ∧
      (serialCommand d other s).currentTableMovement = s.currentTableMovement) ∧
    (toInt "3000".toList = 3000 ∧ (serialCommand d "3000".toList s).currentTarget = 3000) ∧
    (toInt "7000".toList = 7000 ∧
      (serialCommand d "7000".toList s).currentTarget = s.currentTarget) ∧
    (toInt "3000abc".toList = 3000 ∧
      (serialCommand d "3000abc".toList s).currentTarget = 3000) ∧
    (toInt "abc".toList = 0 ∧
      (serialCommand d "abc".toList s).currentTarget = s.currentTarget) := by
  have e3 : "3000".toList = numberLine [] [] 0 3000 [] := by decide
  have e7 : "7000".toList = numberLine [] [] 0 7000 [] := by decide
  have ea : "3000abc".toList = numberLine [] [] 0 3000 "abc".toList := by decide
  obtain ⟨a1, a2, _⟩ := serialCommand_number [] [] [] 0 3000 d s (by decide) (by decide)
    (by decide) (by decide) (by decide) (by decide) (by decide) (by decide)
  obtain ⟨b1, b2, _⟩ := serialCommand_number [] [] [] 0 7000 d s (by decide) (by decide)
    (by decide) (by decide) (by decide) (by decide) (by decide) (by decide)
  obtain ⟨c1, c2, _⟩ := serialCommand_number [] [] "abc".toList 0 3000 d s (by decide)
    (by decide) (by decide) (by decide) (by decide) (by decide) (by decide) (by decide)
  obtain ⟨z1, z2, _⟩ := serialCommand_noNumber "abc".toList d s (by decide) (by decide)
    (by decide) (by decide) (by decide)
  refine ⟨serialCommand_number ws sgn rest k n d s hws hsgn hn hrest hHelp hValues hStop hT,
    fun hno h1 h2 h3 h4 => serialCommand_noNumber other d s hno h1 h2 h3 h4,
    ⟨?_, ?_⟩, ⟨?_, ?_⟩, ⟨?_, ?_⟩, ⟨z1, z2⟩⟩
  · rw [e3, a1]; simp
  · rw [e3, a2]; simp
  · rw [e7, b1]; simp
  · rw [e7, b2]; simp
  · rw [ea, c1]; simp
  · rw [ea, c2]; simp

/-- C10, amended, after a first start: at the line made of a blank, `+`, one zero, the
digits of 3000 and the text `abc`, and at the line `go up`, which starts with no number. -/
theorem C10_target_command_witness :
    ((∀ c ∈ [' '], isspace c = true) ∧
    (['+'] = ([] : List Char) ∨ ['+'] = ['+'] ∨ ['+'] = ['-']) ∧
    3000 < 2147483648 ∧
    noDigitFirst "abc".toList ∧
    (hasIndexOf "HELP".toList (numberLine [' '] ['+'] 1 3000 "abc".toList) ||
      hasIndexOf "help".toList (numberLine [' '] ['+'] 1 3000 "abc".toList)) = false ∧
    (hasIndexOf "VALUES".toList (numberLine [' '] ['+'] 1 3000 "abc".toList) ||
      hasIndexOf "values".toList (numberLine [' '] ['+'] 1 3000 "abc".toList)) = false ∧
    (hasIndexOf "STOP".toList (numberLine [' '] ['+'] 1 3000 "abc".toList) ||
      hasIndexOf "stop".toList (numberLine [' '] ['+'] 1 3000 "abc".toList)) = false ∧
    (hasIndexOf ['T'] (numberLine [' '] ['+'] 1 3000 "abc".toList) ||
      hasIndexOf "t".toList (numberLine [' '] ['+'] 1 3000 "abc".toList)) = false) ∧
    (numberLine [' '] ['+'] 1 3000 "abc".toList = " +03000abc".toList ∧
    toInt (numberLine [' '] ['+'] 1 3000 "abc".toList) =
      (if ['+'] = ['-'] then -((3000 : Nat) : Int) else ((3000 : Nat) : Int)) ∧
    (serialCommand 0 (numberLine [' '] ['+'] 1 3000 "abc".toList) (setup 255)).currentTarget =
      (if ['+'] ≠ ['-'] ∧ 150 < 3000 ∧ 3000 < 6400 then 3000
        else (setup 255).currentTarget) ∧
    (serialCommand 0 (numberLine [' '] ['+'] 1 3000 "abc".toList) (setup 255)).lastPosition =
      (setup 255).lastPosition ∧
    (serialCommand 0 (numberLine [' '] ['+'] 1 3000 "abc".toList)
      (setup 255)).targetThreshold = (setup 255).targetThreshold ∧
    (serialCommand 0 (numberLine [' '] ['+'] 1 3000 "abc".toList)
      (setup 255)).currentTableMovement = (setup 255).currentTableMovement) ∧
    (noLeadingNumber "go up".toList ∧
    toInt "go up".toList = 0 ∧
    (serialCommand 0 "go up".toList (setup 255)).currentTarget = (setup 255).currentTarget ∧
    (serialCommand 0 "go up".toList (setup 255)).lastPosition = (setup 255).lastPosition ∧
    (serialCommand 0 "go up".toList (setup 255)).targetThreshold =
      (setup 255).targetThreshold ∧
    (serialCommand 0 "go up".toList (setup 255)).currentTableMovement =
      (setup 255).currentTableMovement) :=
  ⟨by decide,
    ⟨by decide,
      (C10_target_command [' '] ['+'] "abc".toList "go up".toList 1 3000 0 (setup 255)
        (by decide) (by decide) (by decide) (by decide) (by decide) (by decide) (by decide)
        (by decide)).1⟩,
    ⟨by decide,
      (C10_target_command [' '] ['+'] "abc".toList "go up".toList 1 3000 0 (setup 255)
        (by decide) (by decide) (by decide) (by decide) (by decide) (by decide) (by decide)
        (by decide)).2.1 (by decide) (by decide) (by decide) (by decide) (by decide)⟩⟩

/-! ## The target the STOP command computes -/

theorem uint16_cast (z : Int) : ((uint16 z : Nat) : Int) = z % 65536 := by
  unfold uint16
  omega

/-- C11, refuted as stated: after a first start and the frames with positions 65535 and
65300 the direction is 1 (Above) with threshold 120, and the line `STOP` makes the target
4, not the integer 65300 + 2 * 120 = 65540, which does not fit the `uint16_t` target; and
with direction 1 the line `HELP STOP`, which contains STOP, is handled as HELP and leaves
the target 5000. -/
theorem C11_stop_target_wraps :
    desiredTableDirection (run [(some (positionFrame 65535), none),
      (some (positionFrame 65300), none)] (setup 255)) = 1 ∧
    (run [(some (positionFrame 65535), none), (some (positionFrame 65300), none)]
      (setup 255)).lastPosition = 65300 ∧
    (run [(some (positionFrame 65535), none), (some (positionFrame 65300), none)]
      (setup 255)).targetThreshold = 120 ∧
    (loop none (some "STOP".toList) (run [(some (positionFrame 65535), none),
      (some (positionFrame 65300), none)] (setup 255))).currentTarget = 4 ∧
    (loop none (some "STOP".toList) (run [(some (positionFrame 65535), none),
      (some (positionFrame 65300), none)] (setup 255))).currentTarget ≠ 65300 + 2 * 120 ∧
    desiredTableDirection (run [(some (positionFrame 3000), none),
      (none, some "5000".toList)] (setup 255)) = 1 ∧
    (loop none (some "HELP STOP".toList) (run [(some (positionFrame 3000), none),
      (none, some "5000".toList)] (setup 255))).currentTarget = 5000 := by
  decide

/-- C11, amended: in a pass of `loop` whose line is handled as STOP (it contains `STOP`
or `stop` and neither HELP nor VALUES in either spelling), with position, target and
threshold as they are after the frame of the pass, the new target is position plus twice
the threshold modulo `2^16` if the direction is 1 (Above), position minus twice the
threshold modulo `2^16` if the direction is 2 (Below), and the old target if the
direction is 0 (Level). -/
theorem C11_stop_target (s : State) (frame : Option LinFrame) (val : List Char)
    (hHelp : (hasIndexOf "HELP".toList val || hasIndexOf "help".toList val) = false)
    (hValues : (hasIndexOf "VALUES".toList val || hasIndexOf "values".toList val) = false)
    (hStop : (hasIndexOf "STOP".toList val || hasIndexOf "stop".toList val) = true) :
    ((loop frame (some val) s).currentTarget : Int) =
      if desiredTableDirection (pollFrame frame s) = 1 then
        (((pollFrame frame s).lastPosition : Int) +
          2 * (pollFrame frame s).targetThreshold) % 65536
      else if desiredTableDirection (pollFrame frame s) = 2 then
        (((pollFrame frame s).lastPosition : Int) -
          2 * (pollFrame frame s).targetThreshold) % 65536
      else ((pollFrame frame s).currentTarget : Int) := by
  obtain ⟨m1, m2, _, m4, _, _⟩ :=
    moveTable_fields (desiredTableDirection (pollFrame frame s)) (pollFrame frame s)
  obtain ⟨_, _, _, _, _, _, _, c8⟩ :=
    serialCommand_stop (desiredTableDirection (pollFrame frame s)) val
      (moveTable (desiredTableDirection (pollFrame frame s)) (pollFrame frame s))
      hHelp hValues hStop
  have hl : loop frame (some val) s =
      serialCommand (desiredTableDirection (pollFrame frame s)) val
        (moveTable (desiredTableDirection (pollFrame frame s)) (pollFrame frame s)) := rfl
  rw [hl, c8, m1, m2, m4]
  split_ifs
  · rw [uint16_cast]; omega
  · rw [uint16_cast]; omega
  · rfl

/-- C11, amended, at the line `STOP` with direction Above, position 500 and threshold
80: the target becomes 660. -/
theorem C11_stop_target_witness :
    ((hasIndexOf "HELP".toList "STOP".toList || hasIndexOf "help".toList "STOP".toList)
      = false ∧
    (hasIndexOf "VALUES".toList "STOP".toList || hasIndexOf "values".toList "STOP".toList)
      = false ∧
    (hasIndexOf "STOP".toList "STOP".toList || hasIndexOf "stop".toList "STOP".toList)
      = true) ∧
    (((loop none (some "STOP".toList) (run [(some (positionFrame 500), some "t80".toList),
        (none, some "1000".toList)] (setup 255))).currentTarget : Int) =
      if desiredTableDirection (pollFrame none (run [(some (positionFrame 500),
          some "t80".toList), (none, some "1000".toList)] (setup 255))) = 1 then
        (((pollFrame none (run [(some (positionFrame 500), some "t80".toList),
          (none, some "1000".toList)] (setup 255))).lastPosition : Int) +
          2 * (pollFrame none (run [(some (positionFrame 500), some "t80".toList),
          (none, some "1000".toList)] (setup 255))).targetThreshold) % 65536
      else if desiredTableDirection (pollFrame none (run [(some (positionFrame 500),
          some "t80".toList), (none, some "1000".toList)] (setup 255))) = 2 then
        (((pollFrame none (run [(some (positionFrame 500), some "t80".toList),
          (none, some "1000".toList)] (setup 255))).lastPosition : Int) -
          2 * (pollFrame none (run [(some (positionFrame 500), some "t80".toList),
          (none, some "1000".toList)] (setup 255))).targetThreshold) % 65536
      else ((pollFrame none (run [(some (positionFrame 500), some "t80".toList),
          (none, some "1000".toList)] (setup 255))).currentTarget : Int)) ∧
    (desiredTableDirection (run [(some (positionFrame 500), some "t80".toList),
        (none, some "1000".toList)] (setup 255)) = 1 ∧
      (run [(some (positionFrame 500), some "t80".toList),
        (none, some "1000".toList)] (setup 255)).lastPosition = 500 ∧
      (run [(some (positionFrame 500), some "t80".toList),
        (none, some "1000".toList)] (setup 255)).targetThreshold = 80 ∧
      (loop none (some "STOP".toList) (run [(some (positionFrame 500), some "t80".toList),
        (none, some "1000".toList)] (setup 255))).currentTarget = 660) :=
  ⟨by decide,
    C11_stop_target (run [(some (positionFrame 500), some "t80".toList),
      (none, some "1000".toList)] (setup 255)) none "STOP".toList (by decide) (by decide)
      (by decide),
    by decide⟩

/-! ## Position frames -/

theorem get_byte_lt (frame : LinFrame) (i : Nat) : frame.get_byte i < 256 := by
  unfold LinFrame.get_byte
  exact Nat.mod_lt _ (by decide)

theorem decodedPosition_eq (frame : LinFrame) :
    decodedPosition frame = 256 * frame.get_byte 2 + frame.get_byte 1 ∧
    decodedPosition frame = (frame.get_byte 2 <<< 8) ||| frame.get_byte 1 := by
  have h1 := get_byte_lt frame 1
  have h2 := get_byte_lt frame 2
  have hu : uint16 ((frame.get_byte 2 : Int) * 256) = 2 ^ 8 * frame.get_byte 2 := by
    unfold uint16
    omega
  have hs : frame.get_byte 2 <<< 8 = 2 ^ 8 * frame.get_byte 2 := by
    rw [Nat.shiftLeft_eq, Nat.mul_comm]
  unfold decodedPosition
  rw [hu, hs, ← Nat.mul_add_lt_is_or (by simpa using h1)]
  simp

theorem processLINFrame_position (frame : LinFrame) (s : State)
    (hid : frame.get_byte 0 = 0x92) :
    (processLINFrame frame s).lastPosition = decodedPosition frame := by
  unfold processLINFrame decodedPosition
  simp only [hid, if_true]
  split_ifs with h1 h2
  · rfl
  · rfl
  · simp only [ne_eq, not_not] at h1
    exact h1.symm

/-- C12: for every frame whose byte at offset 0 is `0x92`, after `processLINFrame` the
stored position is `(byte[2] << 8) | byte[1]`, which is `256 * byte[2] + byte[1]`; the
frame `[0x92, 0x05, 0x3E]` yields position 15877. -/
theorem C12_frame_decoding (frame : LinFrame) (s : State) (hid : frame.get_byte 0 = 0x92) :
    (processLINFrame frame s).lastPosition =
      (frame.get_byte 2 <<< 8) ||| frame.get_byte 1 ∧
    (processLINFrame frame s).lastPosition = 256 * frame.get_byte 2 + frame.get_byte 1 ∧
    (processLINFrame ⟨[0x92, 0x05, 0x3E]⟩ s).lastPosition = 15877 := by
  rw [processLINFrame_position frame s hid,
    processLINFrame_position ⟨[0x92, 0x05, 0x3E]⟩ s (by decide)]
  refine ⟨(decodedPosition_eq frame).2, (decodedPosition_eq frame).1, ?_⟩
  rw [(decodedPosition_eq ⟨[0x92, 0x05, 0x3E]⟩).1]
  decide

/-- C12 at the frame `[0x92, 0x05, 0x3E]` after a first start. -/
theorem C12_frame_decoding_witness :
    (LinFrame.get_byte ⟨[0x92, 0x05, 0x3E]⟩ 0 = 0x92) ∧
    ((processLINFrame ⟨[0x92, 0x05, 0x3E]⟩ (setup 255)).lastPosition =
      (LinFrame.get_byte ⟨[0x92, 0x05, 0x3E]⟩ 2 <<< 8) |||
        LinFrame.get_byte ⟨[0x92, 0x05, 0x3E]⟩ 1 ∧
    (processLINFrame ⟨[0x92, 0x05, 0x3E]⟩ (setup 255)).lastPosition =
      256 * LinFrame.get_byte ⟨[0x92, 0x05, 0x3E]⟩ 2 +
        LinFrame.get_byte ⟨[0x92, 0x05, 0x3E]⟩ 1 ∧
    (processLINFrame ⟨[0x92, 0x05, 0x3E]⟩ (setup 255)).lastPosition = 15877) :=
  ⟨by decide, C12_frame_decoding ⟨[0x92, 0x05, 0x3E]⟩ (setup 255) (by decide)⟩

/-- C16: for every frame whose byte at offset 0 is not `0x92`, whatever its other bytes,
`processLINFrame` leaves the whole state as it is, so position, target, the
target-initialized flag, threshold and `currentTableMovement` are unchanged. -/
theorem C16_irrelevant_frame (frame : LinFrame) (s : State)
    (hid : frame.get_byte 0 ≠ 0x92) :
    processLINFrame frame s = s ∧
    (processLINFrame frame s).lastPosition = s.lastPosition ∧
    (processLINFrame frame s).currentTarget = s.currentTarget ∧
    (processLINFrame frame s).initializedTarget = s.initializedTarget ∧
    (processLINFrame frame s).targetThreshold = s.targetThreshold ∧
    (processLINFrame frame s).currentTableMovement = s.currentTableMovement := by
  have h : processLINFrame frame s = s := by
    unfold processLINFrame
    simp only [hid, if_false]
  rw [h]
  exact ⟨rfl, rfl, rfl, rfl, rfl, rfl⟩

/-- C16 at the frame `[0x91, 0x05, 0x3E]` after a first start. -/
theorem C16_irrelevant_frame_witness :
    (LinFrame.get_byte ⟨[0x91, 0x05, 0x3E]⟩ 0 ≠ 0x92) ∧
    (processLINFrame ⟨[0x91, 0x05, 0x3E]⟩ (setup 255) = setup 255 ∧
    (processLINFrame ⟨[0x91, 0x05, 0x3E]⟩ (setup 255)).lastPosition =
      (setup 255).lastPosition ∧
    (processLINFrame ⟨[0x91, 0x05, 0x3E]⟩ (setup 255)).currentTarget =
      (setup 255).currentTarget ∧
    (processLINFrame ⟨[0x91, 0x05, 0x3E]⟩ (setup 255)).initializedTarget =
      (setup 255).initializedTarget ∧
    (processLINFrame ⟨[0x91, 0x05, 0x3E]⟩ (setup 255)).targetThreshold =
      (setup 255).targetThreshold ∧
    (processLINFrame ⟨[0x91, 0x05, 0x3E]⟩ (setup 255)).currentTableMovement =
      (setup 255).currentTableMovement) :=
  ⟨by decide, C16_irrelevant_frame ⟨[0x91, 0x05, 0x3E]⟩ (setup 255) (by decide)⟩

/-! ## The bootstrap of the target -/

/-- What `processLINFrame` does to position, target and flag, by the position the frame
carries. -/
theorem processLINFrame_tracker (f : LinFrame) (s : State) :
    (framePosition f = none ∧ processLINFrame f s = s) ∨
    (framePosition f = some s.lastPosition ∧ processLINFrame f s = s) ∨
    (∃ p, framePosition f = some p ∧ p ≠ s.lastPosition ∧
      (processLINFrame f s).lastPosition = p ∧
      (processLINFrame f s).currentTarget =
        (if s.initializedTarget = 0 then p else s.currentTarget) ∧
      (processLINFrame f s).initializedTarget =
        (if s.initializedTarget = 0 then 1 else s.initializedTarget)) := by
  unfold framePosition
  by_cases hid : f.get_byte 0 = 0x92
  · by_cases hp : decodedPosition f = s.lastPosition
    · right; left
      refine ⟨by simp [hid, hp], ?_⟩
      unfold decodedPosition at hp
      unfold processLINFrame
      simp [hid, hp]
    · right; right
      refine ⟨decodedPosition f, by simp [hid], hp, ?_⟩
      unfold decodedPosition at hp
      unfold processLINFrame decodedPosition
      simp only [hid, if_true, ne_eq, hp, not_false_eq_true]
      split_ifs with h0 <;> simp_all [serialPrint, serialPrintln]
  · left
    refine ⟨by simp [hid], ?_⟩
    unfold processLINFrame
    simp only [hid, if_false]

theorem loop_frame_fields (f : LinFrame) (s : State) :
    (loop (some f) none s).lastPosition = (processLINFrame f s).lastPosition ∧
    (loop (some f) none s).currentTarget = (processLINFrame f s).currentTarget ∧
    (loop (some f) none s).initializedTarget = (processLINFrame f s).initializedTarget := by
  obtain ⟨m1, m2, m3, _⟩ :=
    moveTable_fields (desiredTableDirection (processLINFrame f s)) (processLINFrame f s)
  exact ⟨m1, m2, m3⟩

theorem run_frameTicks_cons (f : LinFrame) (fs : List LinFrame) (s : State) :
    run (frameTicks (f :: fs)) s = run (frameTicks fs) (loop (some f) none s) := by
  simp [frameTicks, run]

theorem run_frames_initialized (frames : List LinFrame) :
    ∀ s : State, s.initializedTarget ≠ 0 →
      (run (frameTicks frames) s).currentTarget = s.currentTarget ∧
      (run (frameTicks frames) s).initializedTarget ≠ 0 := by
  induction frames with
  | nil => intro s h; exact ⟨rfl, h⟩
  | cons f fs ih =>
    intro s h
    obtain ⟨_, l2, l3⟩ := loop_frame_fields f s
    have key : (processLINFrame f s).currentTarget = s.currentTarget ∧
        (processLINFrame f s).initializedTarget ≠ 0 := by
      rcases processLINFrame_tracker f s with ⟨_, e⟩ | ⟨_, e⟩ | ⟨p, _, _, _, e2, e3⟩
      · rw [e]; exact ⟨rfl, h⟩
      · rw [e]; exact ⟨rfl, h⟩
      · rw [e2, e3, if_neg h, if_neg h]; exact ⟨rfl, h⟩
    obtain ⟨i1, i2⟩ := ih (loop (some f) none s) (by rw [l3]; exact key.2)
    rw [run_frameTicks_cons]
    exact ⟨by rw [i1, l2, key.1], i2⟩

theorem run_frames_bootstrap (frames : List LinFrame) :
    ∀ s : State, s.initializedTarget = 0 →
      (run (frameTicks frames) s).currentTarget =
        ((frames.filterMap framePosition).find? (fun p => p != s.lastPosition)).getD
          s.currentTarget ∧
      ((run (frameTicks frames) s).initializedTarget = 0 ↔
        (frames.filterMap framePosition).find? (fun p => p != s.lastPosition) = none) := by
  induction frames with
  | nil => intro s h; simp [frameTicks, run, h]
  | cons f fs ih =>
    intro s h
    obtain ⟨l1, l2, l3⟩ := loop_frame_fields f s
    rw [run_frameTicks_cons]
    rcases processLINFrame_tracker f s with ⟨e0, e⟩ | ⟨e0, e⟩ | ⟨p, e0, hp, e1, e2, e3⟩
    · rw [e] at l1 l2 l3
      obtain ⟨i1, i2⟩ := ih (loop (some f) none s) (by rw [l3]; exact h)
      rw [i1, i2, l1, l2]
      simp [List.filterMap_cons, e0]
    · rw [e] at l1 l2 l3
      obtain ⟨i1, i2⟩ := ih (loop (some f) none s) (by rw [l3]; exact h)
      rw [i1, i2, l1, l2]
      simp [List.filterMap_cons, e0]
    · rw [e3, if_pos h] at l3
      rw [e2, if_pos h] at l2
      obtain ⟨i1, i2⟩ := run_frames_initialized fs (loop (some f) none s) (by rw [l3]; decide)
      rw [i1, l2]
      have hb : (p != s.lastPosition) = true := by simpa using hp
      simp [List.filterMap_cons, e0, List.find?_cons, hb, i2]


theorem setup_tracker (persisted : Nat) :
    (setup persisted).lastPosition = 0 ∧ (setup persisted).currentTarget = 0 ∧
    (setup persisted).initializedTarget = 0 := by
  unfold setup
  by_cases h : persisted = 255 <;>
    simp [reset, h, storeThreshold, printValues, serialPrint, serialPrintln, digitalWrite,
      moveTableUpPin, moveTableDownPin]

theorem run_append (xs ys : List (Option LinFrame × Option (List Char))) (s : State) :
    run (xs ++ ys) s = run ys (run xs s) := by
  simp [run, List.foldl_append]

/-- C13: for every sequence of frames processed after `setup` in passes of `loop` without
console lines, the target is the first decoded position that differs from the stored
position (which is 0 until then), and 0 while there is none; the target-initialized flag
is clear exactly while there is none; and once the flag is set, no further frames change
the target, whatever positions they carry.  After positions 3000, 3100 and 2900 the
target is 3000. -/
theorem C13_target_bootstrap_once (persisted : Nat) (frames more : List LinFrame) :
    (run (frameTicks frames) (setup persisted)).currentTarget =
      ((frames.filterMap framePosition).find? (fun p => p != 0)).getD 0 ∧
    ((run (frameTicks frames) (setup persisted)).initializedTarget = 0 ↔
      (frames.filterMap framePosition).find? (fun p => p != 0) = none) ∧
    ((run (frameTicks frames) (setup persisted)).initializedTarget = 0 ∨
      (run (frameTicks (frames ++ more)) (setup persisted)).currentTarget =
        (run (frameTicks frames) (setup persisted)).currentTarget) ∧
    (run (frameTicks [positionFrame 3000, positionFrame 3100, positionFrame 2900])
      (setup 255)).currentTarget = 3000 := by
  obtain ⟨s1, s2, s3⟩ := setup_tracker persisted
  obtain ⟨b1, b2⟩ := run_frames_bootstrap frames (setup persisted) s3
  rw [s1, s2] at b1
  rw [s1] at b2
  refine ⟨b1, b2, ?_, by decide⟩
  by_cases h : (run (frameTicks frames) (setup persisted)).initializedTarget = 0
  · exact Or.inl h
  · right
    have hf : frameTicks (frames ++ more) = frameTicks frames ++ frameTicks more := by
      simp [frameTicks]
    rw [hf, run_append]
    exact (run_frames_initialized more _ h).1


/-! ## Idempotence of the motion driver -/

/-- C14: for every state and every direction `d`, the second of two calls `moveTable(d)`
in a row performs no `digitalWrite` and changes no state, so the two calls produce the
pin writes and the final state of one call; and `moveTable` called with the value
`currentTableMovement` already has performs no write and changes no state. -/
theorem C14_moveTable_idempotent (d : Nat) (s : State) :
    moveTable d (moveTable d s) = moveTable d s ∧
    moveTableSteps d (moveTable d s) = [] ∧
    moveTableAllSteps [d, d] s = moveTableSteps d s ∧
    moveTableAll [d, d] s = moveTableAll [d] s ∧
    moveTableSteps s.currentTableMovement s = [] ∧
    moveTable s.currentTableMovement s = s := by
  have hc : (moveTable d s).currentTableMovement = d := (moveTable_fields d s).2.2.2.2.2
  have h1 : moveTable d (moveTable d s) = moveTable d s := moveTable_same d _ hc
  have h2 : moveTableSteps d (moveTable d s) = [] := by
    unfold moveTableSteps
    simp [hc]
  refine ⟨h1, h2, ?_, ?_, ?_, moveTable_same _ s rfl⟩
  · simp [moveTableAllSteps, h2]
  · simp [moveTableAll, h1]
  · unfold moveTableSteps
    simp


/-! ## Priority in the dispatch -/

theorem printHelp_fields (s : State) :
    (printHelp s).lastPosition = s.lastPosition ∧
    (printHelp s).currentTarget = s.currentTarget ∧
    (printHelp s).targetThreshold = s.targetThreshold ∧
    (printHelp s).eeprom0 = s.eeprom0 ∧
    (printHelp s).currentTableMovement = s.currentTableMovement := by
  simp [printHelp, serialPrintln]

theorem printValues_fields (s : State) :
    (printValues s).lastPosition = s.lastPosition ∧
    (printValues s).currentTarget = s.currentTarget ∧
    (printValues s).targetThreshold = s.targetThreshold ∧
    (printValues s).eeprom0 = s.eeprom0 ∧
    (printValues s).currentTableMovement = s.currentTableMovement := by
  simp [printValues, serialPrint, serialPrintln]

/-- C15: for every console line that contains HELP or VALUES (either in upper or in lower
case), whatever else it contains, processing the line leaves position, target,
threshold, persisted byte and `currentTableMovement` unchanged; and for every line that
contains STOP the threshold and the persisted byte are unchanged, it is never handled as
a threshold command, and when it contains neither HELP nor VALUES it is handled exactly as
the line `STOP`. -/
theorem C15_read_only_and_priority (val : List Char) (d : Nat) (s : State) :
    (((hasIndexOf "HELP".toList val || hasIndexOf "help".toList val) = true ∨
        (hasIndexOf "VALUES".toList val || hasIndexOf "values".toList val) = true) →
      (serialCommand d val s).lastPosition = s.lastPosition ∧
      (serialCommand d val s).currentTarget = s.currentTarget ∧
      (serialCommand d val s).targetThreshold = s.targetThreshold ∧
      (serialCommand d val s).eeprom0 = s.eeprom0 ∧
      (serialCommand d val s).currentTableMovement = s.currentTableMovement) ∧
    ((hasIndexOf "STOP".toList val || hasIndexOf "stop".toList val) = true →
      (serialCommand d val s).targetThreshold = s.targetThreshold ∧
      (serialCommand d val s).eeprom0 = s.eeprom0 ∧
      ((hasIndexOf "HELP".toList val || hasIndexOf "help".toList val) = false →
        (hasIndexOf "VALUES".toList val || hasIndexOf "values".toList val) = false →
        serialCommand d val s = serialCommand d "STOP".toList s)) := by
  constructor
  · intro h
    by_cases hH : (hasIndexOf "HELP".toList val || hasIndexOf "help".toList val) = true
    · have e : serialCommand d val s = printHelp s := by
        unfold serialCommand
        rw [if_pos hH]
      rw [e]
      exact printHelp_fields s
    · have hV : (hasIndexOf "VALUES".toList val || hasIndexOf "values".toList val) = true := by
        rcases h with h | h
        · exact absurd h hH
        · exact h
      have e : serialCommand d val s = printValues s := by
        unfold serialCommand
        rw [if_neg hH, if_pos hV]
      rw [e]
      exact printValues_fields s
  · intro hS
    have hthr : (serialCommand d val s).targetThreshold = s.targetThreshold ∧
        (serialCommand d val s).eeprom0 = s.eeprom0 := by
      unfold serialCommand
      rw [if_pos hS]
      split_ifs <;> simp [printHelp, printValues, serialPrint, serialPrintln]
    refine ⟨hthr.1, hthr.2, ?_⟩
    intro hH hV
    have hS0 : (hasIndexOf "STOP".toList "STOP".toList ||
        hasIndexOf "stop".toList "STOP".toList) = true := by decide
    have hH0 : (hasIndexOf "HELP".toList "STOP".toList ||
        hasIndexOf "help".toList "STOP".toList) = false := by decide
    have hV0 : (hasIndexOf "VALUES".toList "STOP".toList ||
        hasIndexOf "values".toList "STOP".toList) = false := by decide
    unfold serialCommand
    rw [hH, hV, hS, hH0, hV0, hS0]
    simp only [Bool.false_eq_true, if_false, if_true]


/-- C15 at the lines `HELP STOP t200 3000` and `values stop T99 3000` with direction 1
after a first start, and at the line `T STOP`. -/
theorem C15_read_only_and_priority_witness :
    ((serialCommand 1 "HELP STOP t200 3000".toList (setup 255)).lastPosition =
        (setup 255).lastPosition ∧
      (serialCommand 1 "HELP STOP t200 3000".toList (setup 255)).currentTarget =
        (setup 255).currentTarget ∧
      (serialCommand 1 "HELP STOP t200 3000".toList (setup 255)).targetThreshold =
        (setup 255).targetThreshold ∧
      (serialCommand 1 "HELP STOP t200 3000".toList (setup 255)).eeprom0 =
        (setup 255).eeprom0 ∧
      (serialCommand 1 "HELP STOP t200 3000".toList (setup 255)).currentTableMovement =
        (setup 255).currentTableMovement) ∧
    ((serialCommand 1 "values stop T99 3000".toList (setup 255)).lastPosition =
        (setup 255).lastPosition ∧
      (serialCommand 1 "values stop T99 3000".toList (setup 255)).currentTarget =
        (setup 255).currentTarget ∧
      (serialCommand 1 "values stop T99 3000".toList (setup 255)).targetThreshold =
        (setup 255).targetThreshold ∧
      (serialCommand 1 "values stop T99 3000".toList (setup 255)).eeprom0 =
        (setup 255).eeprom0 ∧
      (serialCommand 1 "values stop T99 3000".toList (setup 255)).currentTableMovement =
        (setup 255).currentTableMovement) ∧
    serialCommand 1 "T99 STOP".toList (setup 255) =
      serialCommand 1 "STOP".toList (setup 255) :=
  ⟨(C15_read_only_and_priority "HELP STOP t200 3000".toList 1 (setup 255)).1
      (Or.inl (by decide)),
    (C15_read_only_and_priority "values stop T99 3000".toList 1 (setup 255)).1
      (Or.inr (by decide)),
    ((C15_read_only_and_priority "T99 STOP".toList 1 (setup 255)).2 (by decide)).2.2
      (by decide) (by decide)⟩

/-! ## Startup -/

/-- C17: if the persisted byte at EEPROM address 0 is the sentinel 255 when `setup` runs,
then after `setup` the live `targetThreshold` and the persisted byte are both 120 (for
any other persisted byte both are that byte). -/
theorem C17_threshold_bootstrap (persisted : Nat) :
    ((setup 255).targetThreshold = 120 ∧ (setup 255).eeprom0 = 120) ∧
    (reset 255).eeprom0 = 255 ∧
    (setup persisted).targetThreshold = (if persisted = 255 then 120 else persisted) ∧
    (setup persisted).eeprom0 = (if persisted = 255 then 120 else persisted) := by
  refine ⟨by decide, by decide, ?_⟩
  unfold setup
  by_cases h : persisted = 255 <;>
    simp [reset, h, storeThreshold, printValues, serialPrint, serialPrintln, digitalWrite,
      moveTableUpPin, moveTableDownPin]

/-! ## Commands and the passes of `loop` -/

theorem serialCommand_motion (d : Nat) (val : List Char) (s : State) :
    (serialCommand d val s).currentTableMovement = s.currentTableMovement ∧
    (serialCommand d val s).upPin = s.upPin ∧
    (serialCommand d val s).downPin = s.downPin ∧
    (serialCommand d val s).initializedTarget = s.initializedTarget := by
  obtain ⟨_, _, f3, f4, f5, f6, _, _⟩ :=
    storeThreshold_fields (uint8 (toInt (substring 1 val))) s
  unfold serialCommand
  split_ifs <;>
    simp [printHelp, printValues, serialPrint, serialPrintln, f3, f4, f5, f6]

theorem serialCommand_threshold_eeprom (d : Nat) (val : List Char) (s : State) :
    ((serialCommand d val s).targetThreshold = s.targetThreshold ∧
      (serialCommand d val s).eeprom0 = s.eeprom0) ∨
    (serialCommand d val s).targetThreshold = (serialCommand d val s).eeprom0 := by
  obtain ⟨_, _, _, _, _, _, f7, f8⟩ :=
    storeThreshold_fields (uint8 (toInt (substring 1 val))) s
  unfold serialCommand
  split_ifs
  · left; simp [printHelp, serialPrintln]
  · left; simp [printValues, serialPrint, serialPrintln]
  · left; simp [serialPrint, serialPrintln]
  · left; simp [serialPrint, serialPrintln]
  · left; simp [serialPrint, serialPrintln]
  · simp only []
    rw [f7, f8]
    split_ifs
    · right; rfl
    · left; exact ⟨rfl, rfl⟩
  · left; simp [serialPrint, serialPrintln]
  · left; simp [serialPrintln]

theorem loop_eq (frame : Option LinFrame) (input : Option (List Char)) (s : State) :
    loop frame input s =
      match input with
      | some val => serialCommand (desiredTableDirection (pollFrame frame s)) val
          (moveTable (desiredTableDirection (pollFrame frame s)) (pollFrame frame s))
      | none => moveTable (desiredTableDirection (pollFrame frame s)) (pollFrame frame s) :=
  rfl

/-- C19: at the end of every pass of `loop`, `currentTableMovement` is the direction
computed from the state after the frame of the pass and before its console line; and a
console line, whatever command it is, changes neither `currentTableMovement` nor the pins
within the pass: they are what the same pass without a line leaves. -/
theorem C19_command_acts_next_tick (frame : Option LinFrame) (input : Option (List Char)) (s : State) :
    (loop frame input s).currentTableMovement = desiredTableDirection (pollFrame frame s) ∧
    (loop frame input s).currentTableMovement = (loop frame none s).currentTableMovement ∧
    (loop frame input s).upPin = (loop frame none s).upPin ∧
    (loop frame input s).downPin = (loop frame none s).downPin := by
  have hm := (moveTable_fields (desiredTableDirection (pollFrame frame s))
    (pollFrame frame s)).2.2.2.2.2
  cases input with
  | none =>
    rw [loop_eq]
    exact ⟨hm, rfl, rfl, rfl⟩
  | some val =>
    obtain ⟨c1, c2, c3, _⟩ := serialCommand_motion (desiredTableDirection (pollFrame frame s))
      val (moveTable (desiredTableDirection (pollFrame frame s)) (pollFrame frame s))
    rw [loop_eq, loop_eq]
    exact ⟨by rw [c1, hm], c1, c2, c3⟩

theorem loop_threshold_eeprom (frame : Option LinFrame) (input : Option (List Char))
    (s : State) (h : s.targetThreshold = s.eeprom0) :
    (loop frame input s).targetThreshold = (loop frame input s).eeprom0 := by
  obtain ⟨p1, p2, _⟩ := pollFrame_fields frame s
  obtain ⟨_, _, _, m4, m5, _⟩ :=
    moveTable_fields (desiredTableDirection (pollFrame frame s)) (pollFrame frame s)
  rw [loop_eq]
  cases input with
  | none =>
    simp only []
    rw [m4, m5, p1, p2]; exact h
  | some val =>
    simp only []
    rcases serialCommand_threshold_eeprom (desiredTableDirection (pollFrame frame s)) val
      (moveTable (desiredTableDirection (pollFrame frame s)) (pollFrame frame s))
      with ⟨h1, h2⟩ | h1
    · rw [h1, h2, m4, m5, p1, p2]; exact h
    · exact h1

theorem setup_threshold_eeprom (persisted : Nat) :
    (setup persisted).targetThreshold = (if persisted = 255 then 120 else persisted) ∧
    (setup persisted).eeprom0 = (if persisted = 255 then 120 else persisted) := by
  unfold setup
  by_cases h : persisted = 255 <;>
    simp [reset, h, storeThreshold, printValues, serialPrint, serialPrintln, digitalWrite,
      moveTableUpPin, moveTableDownPin]

theorem run_threshold_eeprom (ticks : List (Option LinFrame × Option (List Char))) :
    ∀ s : State, s.targetThreshold = s.eeprom0 →
      (run ticks s).targetThreshold = (run ticks s).eeprom0 := by
  induction ticks with
  | nil => intro s h; exact h
  | cons t ts ih =>
    intro s h
    exact ih _ (loop_threshold_eeprom t.1 t.2 s h)

/-- C20: for every persisted byte found at EEPROM address 0 and every sequence of passes
of `loop` with any frames and console lines after `setup`, the live `targetThreshold`
equals the byte persisted at EEPROM address 0. -/
theorem C20_live_equals_persisted (persisted : Nat) (ticks : List (Option LinFrame × Option (List Char))) :
    (run ticks (setup persisted)).targetThreshold = (run ticks (setup persisted)).eeprom0 := by
  apply run_threshold_eeprom
  obtain ⟨h1, h2⟩ := setup_threshold_eeprom persisted
  rw [h1, h2]

/-- C18: no console command writes the target-initialized flag; so after `setup` (the
flag clear), after a line that is handled as a numeric target command and accepted (such
as `3000`) the target is the operator's value and the flag is still clear, and the next
`0x92` frame whose decoded position differs from the stored position 0 sets the target
to that position, discarding the operator's target. -/
theorem C18_operator_target_overwritten (persisted : Nat) (val : List Char) (frame : LinFrame)
    (hHelp : (hasIndexOf "HELP".toList val || hasIndexOf "help".toList val) = false)
    (hValues : (hasIndexOf "VALUES".toList val || hasIndexOf "values".toList val) = false)
    (hStop : (hasIndexOf "STOP".toList val || hasIndexOf "stop".toList val) = false)
    (hT : (hasIndexOf ['T'] val || hasIndexOf "t".toList val) = false)
    (hrange : 150 < toInt val ∧ toInt val < 6400)
    (hid : frame.get_byte 0 = 0x92) (hp : decodedPosition frame ≠ 0) :
    (∀ (d : Nat) (v : List Char) (s : State),
      (serialCommand d v s).initializedTarget = s.initializedTarget) ∧
    ((loop none (some val) (setup persisted)).currentTarget : Int) = toInt val ∧
    (loop none (some val) (setup persisted)).initializedTarget = 0 ∧
    (loop none (some val) (setup persisted)).lastPosition = 0 ∧
    (loop (some frame) none (loop none (some val) (setup persisted))).currentTarget =
      decodedPosition frame := by
  obtain ⟨s1, s2, s3⟩ := setup_tracker persisted
  obtain ⟨m1, m2, m3, _⟩ :=
    moveTable_fields (desiredTableDirection (pollFrame none (setup persisted)))
      (pollFrame none (setup persisted))
  obtain ⟨t1, t2, _, _, _, _, _, t8⟩ :=
    serialCommand_target val (desiredTableDirection (pollFrame none (setup persisted)))
      (moveTable (desiredTableDirection (pollFrame none (setup persisted)))
        (pollFrame none (setup persisted))) hHelp hValues hStop hT
  have hpf : pollFrame none (setup persisted) = setup persisted := rfl
  have e1 : ((loop none (some val) (setup persisted)).currentTarget : Int) = toInt val := by
    rw [loop_eq]
    simp only []
    rw [t1, if_pos hrange]
    omega
  have e2 : (loop none (some val) (setup persisted)).initializedTarget = 0 := by
    rw [loop_eq]
    simp only []
    rw [t8, m3, hpf, s3]
  have e3 : (loop none (some val) (setup persisted)).lastPosition = 0 := by
    rw [loop_eq]
    simp only []
    rw [t2, m1, hpf, s1]
  refine ⟨fun d v s => (serialCommand_motion d v s).2.2.2, e1, e2, e3, ?_⟩
  obtain ⟨_, l2, _⟩ := loop_frame_fields frame (loop none (some val) (setup persisted))
  rw [l2]
  rcases processLINFrame_tracker frame (loop none (some val) (setup persisted))
    with ⟨e0, _⟩ | ⟨e0, _⟩ | ⟨p, e0, _, _, q2, _⟩
  · simp [framePosition, hid] at e0
  · simp [framePosition, hid, e3] at e0
    exact absurd e0 hp
  · simp only [framePosition, hid, if_true, Option.some.injEq] at e0
    rw [q2, if_pos e2, e0]


/-- C18 after a first start, at the line `3000` followed by a frame with position 2000. -/
theorem C18_operator_target_overwritten_witness :
    ((hasIndexOf "HELP".toList "3000".toList || hasIndexOf "help".toList "3000".toList)
      = false ∧
    (hasIndexOf "VALUES".toList "3000".toList || hasIndexOf "values".toList "3000".toList)
      = false ∧
    (hasIndexOf "STOP".toList "3000".toList || hasIndexOf "stop".toList "3000".toList)
      = false ∧
    (hasIndexOf ['T'] "3000".toList || hasIndexOf "t".toList "3000".toList) = false ∧
    (150 < toInt "3000".toList ∧ toInt "3000".toList < 6400) ∧
    (positionFrame 2000).get_byte 0 = 0x92 ∧ decodedPosition (positionFrame 2000) ≠ 0) ∧
    ((∀ (d : Nat) (v : List Char) (s : State),
      (serialCommand d v s).initializedTarget = s.initializedTarget) ∧
    ((loop none (some "3000".toList) (setup 255)).currentTarget : Int) =
      toInt "3000".toList ∧
    (loop none (some "3000".toList) (setup 255)).initializedTarget = 0 ∧
    (loop none (some "3000".toList) (setup 255)).lastPosition = 0 ∧
    (loop (some (positionFrame 2000)) none
      (loop none (some "3000".toList) (setup 255))).currentTarget =
      decodedPosition (positionFrame 2000)) ∧
    ((loop none (some "3000".toList) (setup 255)).currentTarget = 3000 ∧
    (loop (some (positionFrame 2000)) none
      (loop none (some "3000".toList) (setup 255))).currentTarget = 2000) :=
  ⟨by decide,
    C18_operator_target_overwritten 255 "3000".toList (positionFrame 2000) (by decide)
      (by decide) (by decide) (by decide) (by decide) (by decide) (by decide),
    by decide⟩

end Hackant
